import Mathlib

/-!
# Verification of the Electrum payment orchestrator

Shallow embedding of the Electrum payment service (Go) and proofs about it.

The development covers:
* the Redsys signature engine (`internal/encryptor.go`, and the unnamed
  variant of the same file that uses a `zeroPad` helper);
* the payment engine state machine (`internal/payments.go`): `PayTransaction`,
  `ReturnByOrder`, reconciliation (`processResponse`, `closeOrderOnError`);
* the MongoDB store operations it relies on (`internal/mongo.go`), modelled
  as pure functions over an explicit `Store` state;
* the HTTP `/notify` handler status logic (`internal/server.go` part of
  `encryptor.go` in this source drop);
* an interleaving model of the per-id lock map (`lockOrder`/`unlockOrder`).

Go `int` values are modelled as `Int` (the quantities involved — cents,
order numbers, ids — are far below 2^63, and the source performs no
intentional wrap-around arithmetic). Byte strings are `List Nat`.
Wall-clock time (`time.Now()`) is an explicit `Int` parameter.
-/

namespace Electrum

/-! ## Signer (internal/encryptor.go and the unnamed variant part_007)

The external Go crypto primitives (`des.NewTripleDESCipher` + CBC mode,
`hmac`+`sha256`, `encoding/base64`) are library collaborators, not code of
this repository; they are abstracted as the fields of `Crypto`.  Both signer
implementations call the same library functions, so both are embedded
against the same `Crypto`.  What the repository itself contributes — the
padding arithmetic and the composition of the pipeline — is embedded
literally.  `des.NewTripleDESCipher` accepts exactly 24-byte keys and the
3DES block size is 8; these two library constants appear explicitly. -/

structure Crypto where
  /-- `base64.StdEncoding.DecodeString`; `none` models a decode error. -/
  b64decode : String → Option (List Nat)
  /-- `base64.StdEncoding.EncodeToString`. -/
  b64encode : List Nat → String
  /-- 3DES-CBC encryption with the all-zero 8-byte IV: key, padded plaintext
      to ciphertext (`cipher.NewCBCEncrypter(block, iv).CryptBlocks`). -/
  encryptCBC : List Nat → List Nat → List Nat
  /-- `hmac.New(sha256.New, key)` over a message: key, message to MAC. -/
  hmacSHA256 : List Nat → List Nat → List Nat

/-- UTF-8 encoding of a single Unicode code point. -/
def utf8Enc (ch : Nat) : List Nat :=
  if ch < 0x80 then [ch]
  else if ch < 0x800 then
    [0xC0 + ch / 64, 0x80 + ch % 64]
  else if ch < 0x10000 then
    [0xE0 + ch / 4096, 0x80 + (ch / 64) % 64, 0x80 + ch % 64]
  else
    [0xF0 + ch / 262144, 0x80 + (ch / 4096) % 64, 0x80 + (ch / 64) % 64,
     0x80 + ch % 64]

/-- The UTF-8 bytes of a string, Go's `[]byte(s)`. -/
def strBytes (s : String) : List Nat :=
  (s.data.map (fun c => utf8Enc c.toNat)).flatten

/-- Padding of `internal/encryptor.go` `encrypt3DES` lines 65-67:
`padding := block.BlockSize() - len(toEncryptArray)%block.BlockSize()`
followed by appending `padding` zero bytes (block size 8). -/
def paddedInternal (arr : List Nat) : List Nat :=
  arr ++ List.replicate (8 - arr.length % 8) 0

/-- `zeroPad` of the unnamed encryptor variant (part_007 lines 104-112):
append `blockSize - len%blockSize` zero bytes unless that count equals
`blockSize`, in which case the data is returned unchanged. -/
def zeroPad (data : List Nat) (blockSize : Nat) : List Nat :=
  let padding := blockSize - data.length % blockSize
  if padding = blockSize then data
  else data ++ List.replicate padding 0

/-- `encrypt3DES` of `internal/encryptor.go`: reject the empty string,
build the 3DES cipher (24-byte key required), pad with `paddedInternal`,
CBC-encrypt under the zero IV. -/
def encrypt3DESInternal (c : Crypto) (plainText : String) (key : List Nat) :
    Option (List Nat) :=
  if plainText = "" then none
  else if key.length ≠ 24 then none
  else some (c.encryptCBC key (paddedInternal (strBytes plainText)))

/-- `encrypt3DES` of the unnamed variant: identical except the padding goes
through `zeroPad`. -/
def encrypt3DESUnnamed (c : Crypto) (plainText : String) (key : List Nat) :
    Option (List Nat) :=
  if plainText = "" then none
  else if key.length ≠ 24 then none
  else some (c.encryptCBC key (zeroPad (strBytes plainText) 8))

/-- `CreateSignature` of `internal/encryptor.go`: decode the secret, encrypt
the order, use the ciphertext as HMAC-SHA256 key over the parameters,
Base64-encode the MAC. -/
def CreateSignatureInternal (c : Crypto) (secret parameters order : String) :
    Option String :=
  match c.b64decode secret with
  | none => none
  | some key =>
    match encrypt3DESInternal c order key with
    | none => none
    | some ct => some (c.b64encode (c.hmacSHA256 ct (strBytes parameters)))

/-- `CreateSignature` of the unnamed variant (part_007 lines 42-61): same
pipeline over `encrypt3DESUnnamed`. -/
def CreateSignatureUnnamed (c : Crypto) (secret parameters order : String) :
    Option String :=
  match c.b64decode secret with
  | none => none
  | some key =>
    match encrypt3DESUnnamed c order key with
    | none => none
    | some ct => some (c.b64encode (c.hmacSHA256 ct (strBytes parameters)))

end Electrum
namespace Electrum

/-- A concrete `Crypto` instance used to instantiate the signer theorems:
the library primitives are irrelevant to the properties proved about the
repository's own padding and composition logic. -/
def cryptoTriv : Crypto where
  b64decode := fun _ => some (List.replicate 24 0)
  b64encode := fun _ => "sig"
  encryptCBC := fun _ data => data
  hmacSHA256 := fun key msg => key ++ msg

theorem paddedInternal_length_mod (arr : List Nat) :
    (paddedInternal arr).length % 8 = 0 := by
  have h : arr.length % 8 < 8 := Nat.mod_lt _ (by omega)
  simp only [paddedInternal, List.length_append, List.length_replicate]
  omega

theorem paddedInternal_eq_zeroPad (arr : List Nat) (h : arr.length % 8 ≠ 0) :
    paddedInternal arr = zeroPad arr 8 := by
  have hlt : arr.length % 8 < 8 := Nat.mod_lt _ (by omega)
  simp only [paddedInternal, zeroPad]
  rw [if_neg (by omega)]

/-- C4 counterexample: the claim says the 3DES step "appends none when the
length is already a multiple of 8".  For the 8-byte order string
`"12345678"`, `encrypt3DES` of `internal/encryptor.go` pads to 16 bytes —
it appends a full extra block of 8 zero bytes, so the padded input is not
the unpadded byte string the claim prescribes. -/
theorem c4_counterexample :
    (strBytes "12345678").length % 8 = 0 ∧
    paddedInternal (strBytes "12345678") ≠ strBytes "12345678" ∧
    (paddedInternal (strBytes "12345678")).length = 16 := by
  refine ⟨by decide, by decide, by decide⟩

/-- C4 amended: the signer's 3DES step encrypts the UTF-8 bytes of the
order under 3DES-CBC with the 24-byte key and zero IV, padding with
`8 - len % 8` zero bytes: when the length is **not** a multiple of 8 this
reaches the next multiple of 8 (as the claim states), but when the length
**is** already a multiple of 8 it appends a full extra block of 8 zero
bytes (not none); the ciphertext of the padded order is then used as the
HMAC-SHA256 key over the parameters string. -/
theorem c4_amended (c : Crypto) (s p o : String) (key : List Nat)
    (ho : o ≠ "") (hb : c.b64decode s = some key) (hk : key.length = 24) :
    CreateSignatureInternal c s p o =
      some (c.b64encode (c.hmacSHA256
        (c.encryptCBC key (paddedInternal (strBytes o))) (strBytes p))) ∧
    (paddedInternal (strBytes o)).length % 8 = 0 ∧
    ((strBytes o).length % 8 = 0 →
      paddedInternal (strBytes o) = strBytes o ++ List.replicate 8 0) ∧
    ((strBytes o).length % 8 ≠ 0 →
      paddedInternal (strBytes o) = zeroPad (strBytes o) 8) := by
  refine ⟨?_, paddedInternal_length_mod _, ?_, paddedInternal_eq_zeroPad _⟩
  · simp [CreateSignatureInternal, encrypt3DESInternal, hb, ho, hk]
  · intro h
    simp [paddedInternal, h]

/-- C4 amended, witness at a concrete input. -/
theorem c4_amended_witness :
    CreateSignatureInternal cryptoTriv "sec" "par" "1200" =
      some (cryptoTriv.b64encode (cryptoTriv.hmacSHA256
        (cryptoTriv.encryptCBC (List.replicate 24 0)
          (paddedInternal (strBytes "1200"))) (strBytes "par"))) :=
  (c4_amended cryptoTriv "sec" "par" "1200" (List.replicate 24 0)
    (by decide) rfl (by simp)).1

/-- C10: for every choice of crypto primitives, secret, parameters string
and non-empty order whose UTF-8 byte length is not a multiple of 8, the two
signer implementations — `CreateSignature` of `internal/encryptor.go`
(inline padding) and the unnamed variant using `zeroPad` — return the same
signature. -/
theorem c10_signature_equivalence (c : Crypto) (secret parameters order : String)
    (ho : order ≠ "") (hlen : (strBytes order).length % 8 ≠ 0) :
    CreateSignatureInternal c secret parameters order =
      CreateSignatureUnnamed c secret parameters order := by
  unfold CreateSignatureInternal CreateSignatureUnnamed
  cases hdec : c.b64decode secret with
  | none => rfl
  | some key =>
    unfold encrypt3DESInternal encrypt3DESUnnamed
    rw [paddedInternal_eq_zeroPad _ hlen]

/-- C10 witness: the two signers agree at a concrete input (order `"1200"`,
4 bytes, not a multiple of 8). -/
theorem c10_signature_equivalence_witness :
    CreateSignatureInternal cryptoTriv "s" "p" "1200" =
      CreateSignatureUnnamed cryptoTriv "s" "p" "1200" :=
  c10_signature_equivalence cryptoTriv "s" "p" "1200" (by decide) (by decide)

end Electrum
namespace Electrum

/-! ## Data model (package `entity`)

The `entity` (a.k.a. `models`) package is not part of this source drop —
only its call sites are.  The structures below are modelled from the spec,
with every field that the visible code reads or writes.

Modelled from the spec: `entity.UserTag` (§3 "UserTag: identity id_tag;
maps a physical RFID token to a user_id + username"). -/
structure UserTag where
  idTag : String := ""
  userId : String := ""
  username : String := ""
deriving Repr, DecidableEq

/-- Modelled from the spec: `entity.PaymentMethod` (§3). -/
structure PaymentMethod where
  identifier : String := ""
  userId : String := ""
  userName : String := ""
  isDefault : Bool := false
  failCount : Int := 0
  cofTid : String := ""
  cardBrand : String := ""
  cardCountry : String := ""
  expiryDate : String := ""
  description : String := ""
deriving Repr, DecidableEq

/-- Modelled from the spec: `entity.PaymentOrder` (§3).  Times are
abstract instants (`Int`). -/
structure PaymentOrder where
  order : Int := 0
  transactionId : Int := 0
  userId : String := ""
  userName : String := ""
  amount : Int := 0
  identifier : String := ""
  isCompleted : Bool := false
  result : String := ""
  timeOpened : Int := 0
  timeClosed : Int := 0
  currency : String := ""
  date : String := ""
  refundAmount : Int := 0
  refundTime : Int := 0
  description : String := ""
deriving Repr, DecidableEq

/-- Modelled from the spec: `entity.Transaction` (§3), with the cached
advisory copies of `UserTag` and `PaymentMethod` as options. -/
structure Transaction where
  id : Int := 0
  chargePointId : String := ""
  connectorId : Int := 0
  idTag : String := ""
  meterStart : Int := 0
  meterStop : Int := 0
  isFinished : Bool := false
  paymentAmount : Int := 0
  paymentBilled : Int := 0
  paymentOrder : Int := 0
  paymentError : String := ""
  paymentOrders : List PaymentOrder := []
  userTag : Option UserTag := none
  paymentMethod : Option PaymentMethod := none
deriving Repr, DecidableEq

/-- Modelled from the spec: `Transaction.AddOrder` appends the order
snapshot to the transaction's ordered list of `PaymentOrder` snapshots
(§3, §4.4 reconciliation steps 5-6 "append the order snapshot"). -/
def Transaction.addOrder (t : Transaction) (o : PaymentOrder) : Transaction :=
  { t with paymentOrders := t.paymentOrders ++ [o] }

/-- `entity.PaymentParameters`: the decoded gateway reply (§3 "raw gateway
reply"), with the fields `processResponse` reads. -/
structure PaymentParameters where
  response : String := ""
  order : String := ""
  amount : String := ""
  transactionType : String := ""
  merchantIdentifier : String := ""
  merchantCofTxnid : String := ""
  currency : String := ""
  date : String := ""
  hour : String := ""
  cardBrand : String := ""
  cardCountry : String := ""
  expiryDate : String := ""
deriving Repr, DecidableEq

/-- `entity.MerchantParameters`: the outbound request parameters
(payments.go lines 229-253, 286-297, 335-342); absent fields keep Go's
zero value `""`. -/
structure MerchantParameters where
  amount : String := ""
  order : String := ""
  identifier : String := ""
  merchantCode : String := ""
  currency : String := ""
  transactionType : String := ""
  terminal : String := ""
  directPayment : String := ""
  exception : String := ""
  cofIni : String := ""
  cofType : String := ""
  cofTid : String := ""
deriving Repr, DecidableEq

/-- The part of `config.Config` the payment engine reads.  `secretValid`
abstracts whether `CreateSignature` succeeds for the configured merchant
secret (it fails only on an invalid Base64 secret or a non-24-byte key;
the crypto itself is embedded separately in the `Crypto` section). -/
structure EngineConfig where
  disablePayment : Bool := false
  merchantSecret : String := "s"
  merchantCode : String := "c"
  merchantTerminal : String := "t"
  secretValid : Bool := true
deriving Repr, DecidableEq

/-- The persisted state of the system: the MongoDB collections
(`transactions`, `payment_orders`, `payment_methods`, `user_tags`,
the append-only `payment` audit collection) in insertion order, plus
the list of gateway requests handed to `processRequestWithTimeout`
(`dispatched`, newest last). -/
structure Store where
  transactions : List Transaction := []
  orders : List PaymentOrder := []
  methods : List PaymentMethod := []
  tags : List UserTag := []
  results : List PaymentParameters := []
  dispatched : List MerchantParameters := []
deriving Repr, DecidableEq

/-! ## Store operations (internal/mongo.go)

`FindOne` without a sort returns the first document in natural (insertion)
order; `UpdateOne` updates the first matching document. -/

/-- Update the first element satisfying `p` (MongoDB `UpdateOne`). -/
def updateFirst (p : α → Bool) (f : α → α) : List α → List α
  | [] => []
  | x :: xs => if p x then f x :: xs else x :: updateFirst p f xs

/-- `GetTransaction`: lookup by `transaction_id`. -/
def findTransaction (s : Store) (id : Int) : Option Transaction :=
  s.transactions.find? (fun t => t.id == id)

/-- `UpdateTransaction`: `$set` of only `payment_order`, `payment_error`,
`payment_billed`, `payment_orders` on the first document with this id
(mongo.go lines 222-237). -/
def updateTransaction (s : Store) (t : Transaction) : Store :=
  let patch := fun (u : Transaction) =>
    { u with paymentOrder := t.paymentOrder,
             paymentError := t.paymentError,
             paymentBilled := t.paymentBilled,
             paymentOrders := t.paymentOrders }
  { s with transactions := updateFirst (fun u => u.id == t.id) patch s.transactions }

/-- `GetUserTag`: lookup by `id_tag`. -/
def getUserTag (s : Store) (idTag : String) : Option UserTag :=
  s.tags.find? (fun tg => tg.idTag == idTag)

/-- `GetPaymentOrder`: lookup by `order` number. -/
def getPaymentOrder (s : Store) (n : Int) : Option PaymentOrder :=
  s.orders.find? (fun o => o.order == n)

/-- Upsert by order number: replace the first document with the same
`order`, else insert. -/
def upsertOrder : List PaymentOrder → PaymentOrder → List PaymentOrder
  | [], o => [o]
  | x :: xs, o => if x.order == o.order then o :: xs else x :: upsertOrder xs o

/-- `SavePaymentOrder`: `$set` of the whole document with upsert, keyed by
`order` (mongo.go lines 107-116). -/
def savePaymentOrder (s : Store) (o : PaymentOrder) : Store :=
  { s with orders := upsertOrder s.orders o }

/-- `GetPaymentOrderByTransaction`: the first incomplete order of this
transaction (mongo.go lines 96-104). -/
def getPaymentOrderByTransaction (s : Store) (tid : Int) : Option PaymentOrder :=
  s.orders.find? (fun o => o.transactionId == tid && !o.isCompleted)

/-- One step of scanning for the first document with maximal
`time_opened`. -/
def laterOrder (best : Option PaymentOrder) (o : PaymentOrder) :
    Option PaymentOrder :=
  match best with
  | none => some o
  | some b => if b.timeOpened < o.timeOpened then some o else best

/-- The first document (in natural order) carrying the maximal
`time_opened`. -/
def lastOrder? (l : List PaymentOrder) : Option PaymentOrder :=
  l.foldl laterOrder none

/-- `GetLastOrder`: `FindOne` sorted by `time_opened` descending — the
first document (in natural order) carrying the maximal `time_opened`
(mongo.go lines 119-127). -/
def getLastOrder (s : Store) : Option PaymentOrder :=
  lastOrder? s.orders

/-- `GetPaymentMethodByIdentifier`: lookup by `identifier`. -/
def getPaymentMethodByIdentifier (s : Store) (ident : String) :
    Option PaymentMethod :=
  s.methods.find? (fun m => m.identifier == ident)

/-- `UpdatePaymentMethodFailCount`: `$set fail_count` on the first document
with this identifier. -/
def updatePaymentMethodFailCount (s : Store) (ident : String) (count : Int) :
    Store :=
  let patch := fun (m : PaymentMethod) => { m with failCount := count }
  { s with methods := updateFirst (fun m => m.identifier == ident) patch s.methods }

/-- The fallback branch of `GetPaymentMethod`: `FindOne` sorted by
`fail_count` ascending then `_id` ascending — the first document (in
natural order) among those of this user with minimal `fail_count`. -/
def minFailMethod (s : Store) (userId : String) : Option PaymentMethod :=
  s.methods.foldl (fun best m =>
    if m.userId == userId then
      match best with
      | none => some m
      | some b => if m.failCount < b.failCount then some m else best
    else best) none

/-- `GetPaymentMethod` (mongo.go lines 47-66): the user's default method;
if there is none, or the default has `fail_count > 0`, the user's method
with the lowest fail count. -/
def getPaymentMethodDB (s : Store) (userId : String) : Option PaymentMethod :=
  match s.methods.find? (fun m => m.userId == userId && m.isDefault) with
  | some pm => if pm.failCount > 0 then minFailMethod s userId else some pm
  | none => minFailMethod s userId

/-- `GetPaymentMethodById`: lookup by (identifier, user_id). -/
def getPaymentMethodById (s : Store) (ident userId : String) :
    Option PaymentMethod :=
  s.methods.find? (fun m => m.identifier == ident && m.userId == userId)

/-- `SavePaymentMethod` (mongo.go lines 252-264): reject when a method with
the same (identifier, user_id) exists, else insert; the engine-side wrapper
(payments.go lines 677-685) additionally rejects empty user id or
identifier.  A rejection is only logged by the caller, so the model returns
the unchanged store for it. -/
def savePaymentMethodEngine (s : Store) (pm : PaymentMethod) : Store :=
  if pm.userId == "" then s
  else if pm.identifier == "" then s
  else match getPaymentMethodById s pm.identifier pm.userId with
    | some _ => s
    | none => { s with methods := s.methods ++ [pm] }

/-- `SavePaymentResult`: append-only audit insert. -/
def savePaymentResult (s : Store) (r : PaymentParameters) : Store :=
  { s with results := s.results ++ [r] }

end Electrum
namespace Electrum

/-! ## Payment engine (internal/payments.go)

The engine's database handle is always set in the running system
(`SetDatabase` is called at startup before any handler runs), so the
`p.database == nil` guards are modelled as passing.  `SavePaymentOrder`,
`UpdateTransaction` and `SavePaymentResult` write errors are logged and the
control flow modelled is the success path of each write.  Gateway dispatch
(`go p.processRequestWithTimeout(...)`) is modelled by appending the
request's `MerchantParameters` to `Store.dispatched`. -/

/-- `strconv.Atoi`: optional sign followed by at least one decimal digit
(the int64 range check is dropped: all numbers in play are small). -/
def decVal? (l : List Char) : Option Nat :=
  if l.isEmpty then none
  else if l.all (fun c => c.isDigit) then
    some (l.foldl (fun acc c => acc * 10 + (c.toNat - 48)) 0)
  else none

def atoi? (str : String) : Option Int :=
  match str.data with
  | '+' :: rest => (decVal? rest).map (fun n => (n : Int))
  | '-' :: rest => (decVal? rest).map (fun n => -(n : Int))
  | l => (decVal? l).map (fun n => (n : Int))

/-- The errors `PayTransaction`/`ReturnByOrder` return (payments.go builds
them with `fmt.Errorf`; the model names them). -/
inductive EngineError where
  | notConfigured
  | txNotFound
  | txNotFinished
  | userTagNotFound
  | emptyUserId
  | noPaymentMethod
  | zeroAmount
  | invalidOrderId
  | orderNotFound
  | amountTooLarge
  | signFailed
deriving Repr, DecidableEq

/-- `checkPaymentResult` (payments.go lines 687-701): `true` means no
error — type "0" with response "0000", or type "3" with response "0900". -/
def checkPaymentResult (r : PaymentParameters) : Bool :=
  if r.transactionType == "0" then r.response == "0000"
  else if r.transactionType == "3" then r.response == "0900"
  else false

/-- `updatePaymentMethodFailCounter` (payments.go lines 703-727): skip on
empty identifier or missing method; count 0 resets the fail count, any
other count increments the stored value by one. -/
def updatePaymentMethodFailCounter (s : Store) (ident : String) (count : Int) :
    Store :=
  if ident == "" then s
  else match getPaymentMethodByIdentifier s ident with
    | none => s
    | some pm =>
      updatePaymentMethodFailCount s ident (if count == 0 then 0 else pm.failCount + 1)

/-- `p.conf.Merchant.Secret == "" || ... Code == "" || ... Terminal == ""`
negated (payments.go line 115). -/
def merchantConfigured (conf : EngineConfig) : Bool :=
  !(conf.merchantSecret == "") && !(conf.merchantCode == "")
    && !(conf.merchantTerminal == "")

/-- User-tag resolution (payments.go lines 130-138): cached copy on the
transaction when present, else store lookup by `id_tag`. -/
def resolveUserTag (s : Store) (tx : Transaction) : Option UserTag :=
  match tx.userTag with
  | some tg => some tg
  | none => getUserTag s tx.idTag

/-- First step of method resolution (payments.go lines 152-166): cached
copy when present, else `GetPaymentMethod` by user id. -/
def resolveMethod0 (s : Store) (tx : Transaction) (userId : String) :
    Option PaymentMethod :=
  match tx.paymentMethod with
  | some pm => some pm
  | none => getPaymentMethodDB s userId

/-- Fallback step of method resolution (payments.go lines 167-174): when
the chosen method has no COF transaction id, has failures, or the
transaction carries a payment error, switch to the store's best method for
the user if it is a different one. -/
def applyMethodFallback (s : Store) (tx : Transaction) (userId : String)
    (pm0 : PaymentMethod) : PaymentMethod :=
  if pm0.cofTid == "" || pm0.failCount > 0 || !(tx.paymentError == "") then
    match getPaymentMethodDB s userId with
    | some spm => if spm.identifier == pm0.identifier then pm0 else spm
    | none => pm0
  else pm0

/-- The closure of a prior incomplete order (payments.go lines 179-188):
mark it `"closed without response"`, persist, bump its method's fail
count. -/
def closeOrphanOrder (s : Store) (tid : Int) (now : Int) : Store :=
  match getPaymentOrderByTransaction s tid with
  | none => s
  | some oc =>
    let oc' := { oc with isCompleted := true,
                         result := "closed without response",
                         timeClosed := now }
    updatePaymentMethodFailCounter (savePaymentOrder s oc') oc.identifier 1

/-- The order number allocation rule (payments.go lines 212-217). -/
def allocOrderNum (s : Store) : Int :=
  match getLastOrder s with
  | some lastOrder => lastOrder.order + 1
  | none => 1200

/-- `PayTransaction` (payments.go lines 109-266). -/
def payTransaction (conf : EngineConfig) (s : Store) (tid : Int) (now : Int) :
    Store × Except EngineError Unit :=
  if !merchantConfigured conf then (s, .error .notConfigured) else
  match findTransaction s tid with
  | none => (s, .error .txNotFound)
  | some tx =>
  if !tx.isFinished then (s, .error .txNotFinished) else
  let amount := tx.paymentAmount - tx.paymentBilled
  if amount ≤ 0 then (s, .ok ()) else
  match resolveUserTag s tx with
  | none => (s, .error .userTagNotFound)
  | some tg =>
  if tg.userId == "" then
    (updateTransaction s { tx with paymentBilled := tx.paymentAmount },
     .error .emptyUserId)
  else
  match resolveMethod0 s tx tg.userId with
  | none =>
    (updateTransaction s { tx with paymentBilled := tx.paymentAmount },
     .error .noPaymentMethod)
  | some pm0 =>
  let pm := applyMethodFallback s tx tg.userId pm0
  let consumed := Int.tdiv (tx.meterStop - tx.meterStart) 1000
  let description := tx.chargePointId ++ ":" ++ toString tx.connectorId
    ++ " " ++ toString consumed ++ "kW"
  let s1 := closeOrphanOrder s tid now
  if conf.disablePayment then
    (updateTransaction s1 { tx with paymentBilled := tx.paymentAmount }, .ok ())
  else
  let newOrder : PaymentOrder :=
    { amount := amount, description := description,
      identifier := pm.identifier, transactionId := tx.id,
      userId := tg.userId, userName := tg.username,
      timeOpened := now, order := allocOrderNum s1 }
  let s2 := savePaymentOrder s1 newOrder
  let params : MerchantParameters :=
    { amount := toString amount, order := toString newOrder.order,
      identifier := pm.identifier, merchantCode := conf.merchantCode,
      currency := "978", transactionType := "0",
      terminal := conf.merchantTerminal, directPayment := "true",
      exception := "MIT", cofIni := "N", cofType := "R",
      cofTid := pm.cofTid }
  if conf.secretValid then
    ({ s2 with dispatched := s2.dispatched ++ [params] }, .ok ())
  else (s2, .error .signFailed)

/-- `ReturnByOrder` (payments.go lines 313-354). -/
def returnByOrder (conf : EngineConfig) (s : Store) (orderId : String)
    (amount : Int) : Store × Except EngineError Unit :=
  if amount == 0 then (s, .error .zeroAmount) else
  match atoi? orderId with
  | none => (s, .error .invalidOrderId)
  | some id =>
  match getPaymentOrder s id with
  | none => (s, .error .orderNotFound)
  | some o =>
  if o.amount < amount then (s, .error .amountTooLarge)
  else
    let params : MerchantParameters :=
      { amount := toString amount, order := orderId,
        merchantCode := conf.merchantCode, currency := "978",
        transactionType := "3", terminal := conf.merchantTerminal }
    if conf.secretValid then
      ({ s with dispatched := s.dispatched ++ [params] }, .ok ())
    else (s, .error .signFailed)

/-- `closeOrderOnError` (payments.go lines 646-675), applied to the
in-memory order value `o` its caller holds. -/
def closeOrderOnError (s : Store) (o : PaymentOrder) (result : String)
    (now : Int) : Store :=
  let s1 := updatePaymentMethodFailCounter s o.identifier 1
  let closeStep : Store × PaymentOrder :=
    if !o.isCompleted then
      let o' := { o with isCompleted := true, result := result,
                         timeClosed := now }
      (savePaymentOrder s1 o', o')
    else (s1, o)
  let s2 := closeStep.1
  let o2 := closeStep.2
  if o2.transactionId > 0 then
    match findTransaction s2 o2.transactionId with
    | none => s2
    | some t =>
      updateTransaction s2 (Transaction.addOrder
        { t with paymentBilled := t.paymentAmount,
                 paymentOrder := o2.order,
                 paymentError := result } o2)
  else s2

/-- `processResponse` (payments.go lines 531-642): the reconciliation of a
decoded gateway reply, invoked on a direct gateway reply and on a notify. -/
def processResponse (conf : EngineConfig) (s : Store) (r : PaymentParameters)
    (now : Int) : Store :=
  let s0 := savePaymentResult s r
  match atoi? r.order with
  | none => s0
  | some number =>
  match atoi? r.amount with
  | none => s0
  | some amount =>
  match getPaymentOrder s0 number with
  | none => s0
  | some o =>
  let completeStep : Store × PaymentOrder :=
    if !o.isCompleted then
      let o' := { o with amount := amount, isCompleted := true,
                         result := r.response ++ " by electrum",
                         timeClosed := now, currency := r.currency,
                         date := r.date ++ " " ++ r.hour }
      (savePaymentOrder s0 o', o')
    else (s0, o)
  let s1 := completeStep.1
  let o1 := completeStep.2
  if !checkPaymentResult r then closeOrderOnError s1 o1 r.response now
  else
  let s2 := updatePaymentMethodFailCounter s1 o1.identifier 0
  if r.transactionType == "3" then
    savePaymentOrder s2 { o1 with refundAmount := amount, refundTime := now }
  else
  if o1.transactionId > 0 then
    match findTransaction s2 o1.transactionId with
    | none => s2
    | some t =>
      updateTransaction s2 (Transaction.addOrder
        { t with paymentOrder := o1.order,
                 paymentBilled := t.paymentBilled + o1.amount,
                 paymentError := "" } o1)
  else
    let pm : PaymentMethod :=
      { description := "**** **** **** ****",
        identifier := r.merchantIdentifier, cofTid := r.merchantCofTxnid,
        cardBrand := r.cardBrand, cardCountry := r.cardCountry,
        expiryDate := r.expiryDate, userId := o1.userId,
        userName := o1.userName }
    let s3 := savePaymentMethodEngine s2 pm
    if o1.amount > 0 then
      (returnByOrder conf s3 (toString o1.order) o1.amount).1
    else s3

/-- One engine entry point, for stating reachability over sequences of
client calls and reconciliations. -/
inductive Op where
  | pay (tid : Int)
  | refundOrder (orderId : String) (amount : Int)
  | reconcile (r : PaymentParameters)
deriving Repr

/-- Effect of one operation on the persisted state, at instant `now`. -/
def stepOp (conf : EngineConfig) (s : Store) (op : Op) (now : Int) : Store :=
  match op with
  | .pay tid => (payTransaction conf s tid now).1
  | .refundOrder oid amt => (returnByOrder conf s oid amt).1
  | .reconcile r => processResponse conf s r now

/-- Run a timed sequence of operations. -/
def runOps (conf : EngineConfig) (s : Store) (ops : List (Op × Int)) : Store :=
  ops.foldl (fun st p => stepOp conf st p.1 p.2) s

end Electrum
namespace Electrum

/-! ## The POST /notify handler (server part of internal/encryptor.go,
`paymentNotify`, lines 264-281)

The handler reads the request body; a read error is answered with HTTP 500.
Otherwise `payments.Notify` is invoked synchronously (it parses the push
and spawns the asynchronous reconciliation), its error is only logged, and
the handler answers 200. The body-read outcome and the injected `Notify`
are the handler's two inputs. -/
def paymentNotifyStatus (bodyRead : Except String (List Nat))
    (notify : List Nat → Except String Unit) : Nat :=
  match bodyRead with
  | .error _ => 500
  | .ok body =>
    match notify body with
    | _ => 200

/-- C3 counterexample: the claim says the handler responds 200 "including
when reading the body ... fails internally"; when `io.ReadAll(r.Body)`
fails, `paymentNotify` responds 500, not 200. -/
theorem c3_counterexample :
    paymentNotifyStatus (.error "read body failed") (fun _ => .ok ()) = 500 ∧
    (500 : Nat) ≠ 200 := by
  exact ⟨rfl, by decide⟩

/-- C3 amended: for every request body that is **read successfully**, the
handler responds 200 regardless of the processing outcome (processing
errors are only logged, and reconciliation runs asynchronously after the
response); a body-read failure is answered with 500. -/
theorem c3_amended (body : List Nat) (notify : List Nat → Except String Unit) :
    paymentNotifyStatus (.ok body) notify = 200 ∧
    (∀ e : String, paymentNotifyStatus (.error e) notify = 500) := by
  exact ⟨rfl, fun _ => rfl⟩

end Electrum
namespace Electrum

/-! ## Infrastructure lemmas -/

@[simp] theorem savePaymentResult_orders (s : Store) (r : PaymentParameters) :
    (savePaymentResult s r).orders = s.orders := rfl

@[simp] theorem savePaymentResult_transactions (s : Store) (r : PaymentParameters) :
    (savePaymentResult s r).transactions = s.transactions := rfl

@[simp] theorem savePaymentResult_methods (s : Store) (r : PaymentParameters) :
    (savePaymentResult s r).methods = s.methods := rfl

@[simp] theorem savePaymentResult_tags (s : Store) (r : PaymentParameters) :
    (savePaymentResult s r).tags = s.tags := rfl

@[simp] theorem savePaymentResult_dispatched (s : Store) (r : PaymentParameters) :
    (savePaymentResult s r).dispatched = s.dispatched := rfl

@[simp] theorem savePaymentOrder_transactions (s : Store) (o : PaymentOrder) :
    (savePaymentOrder s o).transactions = s.transactions := rfl

@[simp] theorem savePaymentOrder_methods (s : Store) (o : PaymentOrder) :
    (savePaymentOrder s o).methods = s.methods := rfl

@[simp] theorem savePaymentOrder_tags (s : Store) (o : PaymentOrder) :
    (savePaymentOrder s o).tags = s.tags := rfl

@[simp] theorem savePaymentOrder_dispatched (s : Store) (o : PaymentOrder) :
    (savePaymentOrder s o).dispatched = s.dispatched := rfl

@[simp] theorem savePaymentOrder_results (s : Store) (o : PaymentOrder) :
    (savePaymentOrder s o).results = s.results := rfl

@[simp] theorem savePaymentOrder_orders (s : Store) (o : PaymentOrder) :
    (savePaymentOrder s o).orders = upsertOrder s.orders o := rfl

@[simp] theorem updatePaymentMethodFailCount_transactions (s : Store)
    (i : String) (c : Int) :
    (updatePaymentMethodFailCount s i c).transactions = s.transactions := rfl

@[simp] theorem updatePaymentMethodFailCount_orders (s : Store)
    (i : String) (c : Int) :
    (updatePaymentMethodFailCount s i c).orders = s.orders := rfl

@[simp] theorem updatePaymentMethodFailCount_tags (s : Store)
    (i : String) (c : Int) :
    (updatePaymentMethodFailCount s i c).tags = s.tags := rfl

@[simp] theorem updatePaymentMethodFailCount_results (s : Store)
    (i : String) (c : Int) :
    (updatePaymentMethodFailCount s i c).results = s.results := rfl

@[simp] theorem updatePaymentMethodFailCount_dispatched (s : Store)
    (i : String) (c : Int) :
    (updatePaymentMethodFailCount s i c).dispatched = s.dispatched := rfl

theorem updatePaymentMethodFailCounter_transactions (s : Store)
    (i : String) (c : Int) :
    (updatePaymentMethodFailCounter s i c).transactions = s.transactions := by
  unfold updatePaymentMethodFailCounter
  split
  · rfl
  · split <;> simp

theorem updatePaymentMethodFailCounter_orders (s : Store)
    (i : String) (c : Int) :
    (updatePaymentMethodFailCounter s i c).orders = s.orders := by
  unfold updatePaymentMethodFailCounter
  split
  · rfl
  · split <;> simp

theorem updatePaymentMethodFailCounter_tags (s : Store)
    (i : String) (c : Int) :
    (updatePaymentMethodFailCounter s i c).tags = s.tags := by
  unfold updatePaymentMethodFailCounter
  split
  · rfl
  · split <;> simp

theorem updatePaymentMethodFailCounter_results (s : Store)
    (i : String) (c : Int) :
    (updatePaymentMethodFailCounter s i c).results = s.results := by
  unfold updatePaymentMethodFailCounter
  split
  · rfl
  · split <;> simp

theorem updatePaymentMethodFailCounter_dispatched (s : Store)
    (i : String) (c : Int) :
    (updatePaymentMethodFailCounter s i c).dispatched = s.dispatched := by
  unfold updatePaymentMethodFailCounter
  split
  · rfl
  · split <;> simp

@[simp] theorem updateTransaction_orders (s : Store) (t : Transaction) :
    (updateTransaction s t).orders = s.orders := rfl

@[simp] theorem updateTransaction_methods (s : Store) (t : Transaction) :
    (updateTransaction s t).methods = s.methods := rfl

@[simp] theorem updateTransaction_tags (s : Store) (t : Transaction) :
    (updateTransaction s t).tags = s.tags := rfl

@[simp] theorem updateTransaction_results (s : Store) (t : Transaction) :
    (updateTransaction s t).results = s.results := rfl

@[simp] theorem updateTransaction_dispatched (s : Store) (t : Transaction) :
    (updateTransaction s t).dispatched = s.dispatched := rfl

theorem savePaymentMethodEngine_transactions (s : Store) (pm : PaymentMethod) :
    (savePaymentMethodEngine s pm).transactions = s.transactions := by
  unfold savePaymentMethodEngine
  split
  · rfl
  · split
    · rfl
    · split <;> rfl

theorem savePaymentMethodEngine_orders (s : Store) (pm : PaymentMethod) :
    (savePaymentMethodEngine s pm).orders = s.orders := by
  unfold savePaymentMethodEngine
  split
  · rfl
  · split
    · rfl
    · split <;> rfl

theorem savePaymentMethodEngine_dispatched (s : Store) (pm : PaymentMethod) :
    (savePaymentMethodEngine s pm).dispatched = s.dispatched := by
  unfold savePaymentMethodEngine
  split
  · rfl
  · split
    · rfl
    · split <;> rfl

theorem returnByOrder_transactions (conf : EngineConfig) (s : Store)
    (oid : String) (amt : Int) :
    (returnByOrder conf s oid amt).1.transactions = s.transactions := by
  unfold returnByOrder
  split
  · rfl
  · split
    · rfl
    · split
      · rfl
      · split
        · rfl
        · split <;> rfl

theorem returnByOrder_orders (conf : EngineConfig) (s : Store)
    (oid : String) (amt : Int) :
    (returnByOrder conf s oid amt).1.orders = s.orders := by
  unfold returnByOrder
  split
  · rfl
  · split
    · rfl
    · split
      · rfl
      · split
        · rfl
        · split <;> rfl

@[simp] theorem getPaymentOrder_savePaymentResult (s : Store)
    (r : PaymentParameters) (n : Int) :
    getPaymentOrder (savePaymentResult s r) n = getPaymentOrder s n := rfl

end Electrum
namespace Electrum

@[simp] theorem updateFirst_nil {α : Type} (p : α → Bool) (f : α → α) :
    updateFirst p f [] = [] := rfl

@[simp] theorem updateFirst_cons {α : Type} (p : α → Bool) (f : α → α)
    (x : α) (xs : List α) :
    updateFirst p f (x :: xs) =
      if p x then f x :: xs else x :: updateFirst p f xs := rfl

@[simp] theorem upsertOrder_nil (o : PaymentOrder) : upsertOrder [] o = [o] := rfl

@[simp] theorem upsertOrder_cons (x : PaymentOrder) (xs : List PaymentOrder)
    (o : PaymentOrder) :
    upsertOrder (x :: xs) o =
      if x.order == o.order then o :: xs else x :: upsertOrder xs o := rfl

theorem updateFirst_of_find?_none {α : Type} (p : α → Bool) (f : α → α)
    (l : List α) (h : l.find? p = none) : updateFirst p f l = l := by
  induction l with
  | nil => rfl
  | cons x xs ih =>
    cases hx : p x with
    | true => simp [List.find?_cons_of_pos _ hx] at h
    | false =>
      rw [List.find?_cons_of_neg _ (by simp [hx])] at h
      simp [hx, ih h]

theorem mem_updateFirst_of_find? {α : Type} (p : α → Bool) (f : α → α)
    (l : List α) (a : α) (h : l.find? p = some a) :
    ∀ x ∈ updateFirst p f l, x ∈ l ∨ x = f a := by
  induction l with
  | nil => simp at h
  | cons y ys ih =>
    cases hy : p y with
    | true =>
      rw [List.find?_cons_of_pos _ hy] at h
      simp only [updateFirst_cons, if_pos hy]
      intro x hx
      rcases List.mem_cons.mp hx with hx | hx
      · right
        rw [hx, Option.some_inj.mp h]
      · left
        exact List.mem_cons_of_mem _ hx
    | false =>
      rw [List.find?_cons_of_neg _ (by simp [hy])] at h
      simp only [updateFirst_cons, hy, if_neg Bool.false_ne_true]
      intro x hx
      rcases List.mem_cons.mp hx with hx | hx
      · left
        rw [hx]
        exact List.mem_cons_self _ _
      · rcases ih h x hx with hx' | hx'
        · exact Or.inl (List.mem_cons_of_mem _ hx')
        · exact Or.inr hx'

theorem find?_updateFirst {α : Type} (p : α → Bool) (f : α → α)
    (l : List α) (a : α) (h : l.find? p = some a) (hpf : p (f a) = true) :
    (updateFirst p f l).find? p = some (f a) := by
  induction l with
  | nil => simp at h
  | cons y ys ih =>
    cases hy : p y with
    | true =>
      rw [List.find?_cons_of_pos _ hy] at h
      have hya : y = a := Option.some_inj.mp h
      subst hya
      simp only [updateFirst_cons, if_pos hy]
      exact List.find?_cons_of_pos _ hpf
    | false =>
      rw [List.find?_cons_of_neg _ (by simp [hy])] at h
      simp only [updateFirst_cons, hy, if_neg Bool.false_ne_true]
      rw [List.find?_cons_of_neg _ (by simp [hy])]
      exact ih h

theorem updateFirst_updateFirst {α : Type} (p : α → Bool) (f : α → α)
    (l : List α) (hf : ∀ a, p a = true → p (f a) = true ∧ f (f a) = f a) :
    updateFirst p f (updateFirst p f l) = updateFirst p f l := by
  induction l with
  | nil => rfl
  | cons y ys ih =>
    cases hy : p y with
    | true =>
      simp only [updateFirst_cons, if_pos hy]
      simp [updateFirst_cons, (hf y hy).1, (hf y hy).2]
    | false =>
      simp only [updateFirst_cons, hy, if_neg Bool.false_ne_true]
      simp [updateFirst_cons, hy, ih]

theorem upsertOrder_append_of_no_collision (l : List PaymentOrder)
    (x : PaymentOrder) (h : ∀ o ∈ l, o.order ≠ x.order) :
    upsertOrder l x = l ++ [x] := by
  induction l with
  | nil => rfl
  | cons y ys ih =>
    have hy : (y.order == x.order) = false := by
      simp [h y (List.mem_cons_self _ _)]
    simp only [upsertOrder_cons, hy, if_neg Bool.false_ne_true,
      List.cons_append, List.cons.injEq, true_and]
    exact ih (fun o ho => h o (List.mem_cons_of_mem _ ho))

theorem find?_upsertOrder_self (l : List PaymentOrder) (x : PaymentOrder)
    (n : Int) (hn : x.order = n) :
    (upsertOrder l x).find? (fun o => o.order == n) = some x := by
  induction l with
  | nil =>
    simp only [upsertOrder_nil]
    exact List.find?_cons_of_pos _ (by simp [hn])
  | cons y ys ih =>
    cases hy : (y.order == x.order) with
    | true =>
      simp only [upsertOrder_cons, hy, if_pos rfl]
      exact List.find?_cons_of_pos _ (by simp [hn])
    | false =>
      simp only [upsertOrder_cons, hy, if_neg Bool.false_ne_true]
      rw [List.find?_cons_of_neg _ ?_]
      · exact ih
      · have : y.order ≠ x.order := by simpa using hy
        simp [hn ▸ this]

theorem upsertOrder_upsertOrder (l : List PaymentOrder) (x y : PaymentOrder)
    (h : x.order = y.order) :
    upsertOrder (upsertOrder l x) y = upsertOrder l y := by
  induction l with
  | nil => simp [h]
  | cons z zs ih =>
    cases hz : (z.order == x.order) with
    | true =>
      have hz' : (z.order == y.order) = true := by rw [← h]; exact hz
      simp only [upsertOrder_cons, hz, hz', if_pos rfl]
      simp [h]
    | false =>
      have hz' : (z.order == y.order) = false := by rw [← h]; exact hz
      simp only [upsertOrder_cons, hz, hz', if_neg Bool.false_ne_true]
      rw [ih]

theorem lastOrder?_foldl_mem (l : List PaymentOrder) (acc : Option PaymentOrder) :
    l.foldl laterOrder acc = acc ∨
      ∃ b ∈ l, l.foldl laterOrder acc = some b := by
  induction l generalizing acc with
  | nil => exact Or.inl rfl
  | cons y ys ih =>
    rw [List.foldl_cons]
    rcases ih (laterOrder acc y) with h | ⟨b, hb, h⟩
    · rw [h]
      unfold laterOrder
      cases acc with
      | none => exact Or.inr ⟨y, List.mem_cons_self _ _, rfl⟩
      | some a =>
        by_cases hlt : a.timeOpened < y.timeOpened
        · simp only [if_pos hlt]
          exact Or.inr ⟨y, List.mem_cons_self _ _, rfl⟩
        · simp only [if_neg hlt]
          exact Or.inl trivial
    · exact Or.inr ⟨b, List.mem_cons_of_mem _ hb, h⟩

theorem lastOrder?_append_strict (l : List PaymentOrder) (x : PaymentOrder)
    (h : ∀ o ∈ l, o.timeOpened < x.timeOpened) :
    lastOrder? (l ++ [x]) = some x := by
  unfold lastOrder?
  rw [List.foldl_append]
  rcases lastOrder?_foldl_mem l none with hl | ⟨b, hb, hl⟩
  · rw [hl]
    rfl
  · rw [hl, List.foldl_cons, List.foldl_nil]
    unfold laterOrder
    simp [h b hb]

end Electrum
namespace Electrum

theorem getPaymentOrder_order_eq (s : Store) (n : Int) (o : PaymentOrder)
    (h : getPaymentOrder s n = some o) : o.order = n := by
  have := List.find?_some h
  simpa using this

theorem findTransaction_id_eq (s : Store) (i : Int) (t : Transaction)
    (h : findTransaction s i = some t) : t.id = i := by
  have := List.find?_some h
  simpa using this

@[simp] theorem findTransaction_savePaymentResult (s : Store)
    (r : PaymentParameters) (i : Int) :
    findTransaction (savePaymentResult s r) i = findTransaction s i := rfl

@[simp] theorem findTransaction_savePaymentOrder (s : Store)
    (o : PaymentOrder) (i : Int) :
    findTransaction (savePaymentOrder s o) i = findTransaction s i := rfl

@[simp] theorem findTransaction_updatePaymentMethodFailCounter (s : Store)
    (ident : String) (c : Int) (i : Int) :
    findTransaction (updatePaymentMethodFailCounter s ident c) i =
      findTransaction s i := by
  unfold findTransaction
  rw [updatePaymentMethodFailCounter_transactions]

@[simp] theorem findTransaction_savePaymentMethodEngine (s : Store)
    (pm : PaymentMethod) (i : Int) :
    findTransaction (savePaymentMethodEngine s pm) i = findTransaction s i := by
  unfold findTransaction
  rw [savePaymentMethodEngine_transactions]

@[simp] theorem getPaymentOrder_updatePaymentMethodFailCounter (s : Store)
    (ident : String) (c : Int) (n : Int) :
    getPaymentOrder (updatePaymentMethodFailCounter s ident c) n =
      getPaymentOrder s n := by
  unfold getPaymentOrder
  rw [updatePaymentMethodFailCounter_orders]

@[simp] theorem getPaymentOrder_updateTransaction (s : Store)
    (t : Transaction) (n : Int) :
    getPaymentOrder (updateTransaction s t) n = getPaymentOrder s n := rfl

@[simp] theorem getPaymentOrder_savePaymentMethodEngine (s : Store)
    (pm : PaymentMethod) (n : Int) :
    getPaymentOrder (savePaymentMethodEngine s pm) n = getPaymentOrder s n := by
  unfold getPaymentOrder
  rw [savePaymentMethodEngine_orders]

end Electrum
namespace Electrum

/-! ## Concrete fixtures used by witnesses and counterexamples -/

/-- The default engine configuration: merchant configured, payments
enabled, valid merchant secret. -/
def confDefault : EngineConfig := {}

/-- A completed stored order of 500 cents, number 1500. -/
def orderFix : PaymentOrder := { order := 1500, amount := 500 }

/-- A store holding only `orderFix`. -/
def storeOrder1500 : Store := { orders := [orderFix] }

/-- C8: for every negative amount `n < 0` and a stored order with
non-negative amount, `ReturnByOrder` passes both guards (its rejections
cover only amount `= 0`, non-numeric order ids, and amounts **greater**
than the order's amount), returns nil, and dispatches a type-"3" request
whose `DS_MERCHANT_AMOUNT` is the negative number `n`. -/
theorem c8_negative_refund (conf : EngineConfig) (s : Store) (oid : String)
    (n id : Int) (o : PaymentOrder)
    (hn : n < 0) (hid : atoi? oid = some id) (ho : getPaymentOrder s id = some o)
    (hamt : 0 ≤ o.amount) (hsig : conf.secretValid = true) :
    returnByOrder conf s oid n =
      ({ s with dispatched := s.dispatched ++
          [{ amount := toString n, order := oid,
             merchantCode := conf.merchantCode, currency := "978",
             transactionType := "3", terminal := conf.merchantTerminal }] },
       .ok ()) := by
  have h0 : (n == 0) = false := by
    simp only [beq_eq_false_iff_ne, ne_eq]
    omega
  have h1 : ¬(o.amount < n) := by omega
  simp only [returnByOrder, h0, Bool.false_eq_true, if_false, hid, ho, h1,
    if_neg, hsig, if_true]

/-- C8 witness: refunding −100 cents against stored order 1500 (amount 500)
is accepted and dispatched with `DS_MERCHANT_AMOUNT = "-100"`. -/
theorem c8_negative_refund_witness :
    returnByOrder confDefault storeOrder1500 "1500" (-100) =
      ({ storeOrder1500 with dispatched := storeOrder1500.dispatched ++
          [{ amount := toString (-100 : Int), order := "1500",
             merchantCode := confDefault.merchantCode, currency := "978",
             transactionType := "3",
             terminal := confDefault.merchantTerminal }] },
       .ok ()) :=
  c8_negative_refund confDefault storeOrder1500 "1500" (-100) 1500 orderFix
    (by decide) (by decide) (by decide) (by decide) rfl

/-- C9: when reconciliation completes a not-yet-completed order, the stored
order's `amount` is overwritten with the integer parsed from the reply's
`Ds_Amount`, and on success the transaction's `payment_billed` grows by
exactly that gateway-reported amount — with no hypothesis relating it to
the amount originally dispatched with the order. -/
theorem c9_amount_overwrite (conf : EngineConfig) (s : Store)
    (r : PaymentParameters) (now : Int) (number amount : Int)
    (o : PaymentOrder) (tx : Transaction)
    (hord : atoi? r.order = some number) (ham : atoi? r.amount = some amount)
    (hget : getPaymentOrder s number = some o) (hopen : o.isCompleted = false)
    (htype : r.transactionType = "0") (hresp : r.response = "0000")
    (htid : 0 < o.transactionId)
    (htx : findTransaction s o.transactionId = some tx) :
    (getPaymentOrder (processResponse conf s r now) number).map
        (fun x => x.amount) = some amount ∧
    (findTransaction (processResponse conf s r now) o.transactionId).map
        (fun t => t.paymentBilled) = some (tx.paymentBilled + amount) := by
  have hcheck : checkPaymentResult r = true := by
    simp [checkPaymentResult, htype, hresp]
  have hno3 : (r.transactionType == "3") = false := by simp [htype]
  have hnum : o.order = number := getPaymentOrder_order_eq s number o hget
  have htxid : tx.id = o.transactionId := findTransaction_id_eq _ _ _ htx
  simp only [processResponse, hord, ham, getPaymentOrder_savePaymentResult,
    hget, hopen, Bool.not_false, if_true, hcheck, Bool.not_true,
    Bool.false_eq_true, if_false, hno3, if_pos htid,
    findTransaction_updatePaymentMethodFailCounter,
    findTransaction_savePaymentOrder, findTransaction_savePaymentResult, htx]
  constructor
  · simp only [getPaymentOrder_updateTransaction,
      getPaymentOrder_updatePaymentMethodFailCounter, savePaymentOrder_orders,
      savePaymentResult_orders]
    show ((upsertOrder s.orders _).find? (fun x => x.order == number)).map
      (fun x => x.amount) = some amount
    rw [find?_upsertOrder_self _ _ _ (by simpa using hnum)]
    rfl
  · rw [← htxid]
    simp only [updateTransaction, updatePaymentMethodFailCounter_transactions,
      savePaymentOrder_transactions, savePaymentResult_transactions]
    have hfind : s.transactions.find? (fun u => u.id == tx.id) = some tx := by
      rw [htxid]
      exact htx
    show ((updateFirst (fun u => u.id == tx.id) _ s.transactions).find?
      (fun u => u.id == tx.id)).map (fun t => t.paymentBilled) = _
    rw [find?_updateFirst _ _ _ tx hfind (by simp)]
    rfl

/-- A finished transaction of 1000 cents with 100 already billed. -/
def txBilled100 : Transaction :=
  { id := 7, isFinished := true, paymentAmount := 1000, paymentBilled := 100 }

/-- An open order of 500 cents dispatched for transaction 7. -/
def orderOpen1200 : PaymentOrder :=
  { order := 1200, transactionId := 7, amount := 500, identifier := "card1" }

def storeDispatch500 : Store :=
  { transactions := [txBilled100], orders := [orderOpen1200] }

/-- A success reply for order 1200 whose `Ds_Amount` (700) differs from
the dispatched amount (500). -/
def replyAmount700 : PaymentParameters :=
  { response := "0000", order := "1200", amount := "700",
    transactionType := "0" }

/-- C9 witness: the order dispatched with 500 cents ends stored with
amount 700 and the transaction is credited 700, the gateway-reported
value. -/
theorem c9_amount_overwrite_witness :
    (getPaymentOrder
        (processResponse confDefault storeDispatch500 replyAmount700 9)
        1200).map (fun x => x.amount) = some 700 ∧
    (findTransaction
        (processResponse confDefault storeDispatch500 replyAmount700 9)
        orderOpen1200.transactionId).map (fun t => t.paymentBilled) =
      some (txBilled100.paymentBilled + 700) :=
  c9_amount_overwrite confDefault storeDispatch500 replyAmount700 9 1200 700
    orderOpen1200 txBilled100 (by decide) (by decide) (by decide) rfl rfl rfl
    (by decide) (by decide)

/-- C6: for every finished transaction with a positive unbilled remainder
whose resolved user tag carries an empty `user_id`, `PayTransaction` sets
`payment_billed = payment_amount`, persists it through
`UpdateTransaction`, returns the "empty user id" error, and performs no
gateway dispatch and no order allocation (orders and dispatched requests
are untouched). -/
theorem c6_no_user_closes_ledger (conf : EngineConfig) (s : Store)
    (tid : Int) (now : Int) (tx : Transaction) (tg : UserTag)
    (hconf : merchantConfigured conf = true)
    (htx : findTransaction s tid = some tx) (hfin : tx.isFinished = true)
    (hamt : 0 < tx.paymentAmount - tx.paymentBilled)
    (htag : resolveUserTag s tx = some tg) (huid : tg.userId = "") :
    payTransaction conf s tid now =
      (updateTransaction s { tx with paymentBilled := tx.paymentAmount },
        .error .emptyUserId) ∧
    (payTransaction conf s tid now).1.orders = s.orders ∧
    (payTransaction conf s tid now).1.dispatched = s.dispatched ∧
    (findTransaction (payTransaction conf s tid now).1 tid).map
      (fun t => t.paymentBilled) = some tx.paymentAmount := by
  have hid : tx.id = tid := findTransaction_id_eq _ _ _ htx
  have hle : ¬(tx.paymentAmount - tx.paymentBilled ≤ 0) := by omega
  have hmain : payTransaction conf s tid now =
      (updateTransaction s { tx with paymentBilled := tx.paymentAmount },
        .error .emptyUserId) := by
    simp only [payTransaction, hconf, Bool.not_true, Bool.false_eq_true,
      if_false, htx, hfin, if_neg hle, htag, huid]
    simp
  refine ⟨hmain, ?_, ?_, ?_⟩
  · rw [hmain]
    rfl
  · rw [hmain]
    rfl
  · rw [hmain]
    simp only [updateTransaction]
    have hfind : s.transactions.find? (fun u => u.id == tx.id) = some tx := by
      rw [hid]
      exact htx
    show ((updateFirst (fun u => u.id == tx.id) _ s.transactions).find?
      (fun u => u.id == tid)).map (fun t => t.paymentBilled) = _
    rw [← hid]
    rw [find?_updateFirst _ _ _ tx hfind (by simp)]
    rfl

/-- A finished transaction whose cached user tag has an empty user id. -/
def txNoUser : Transaction :=
  { id := 4, isFinished := true, paymentAmount := 300, idTag := "T4",
    userTag := some { idTag := "T4", userId := "", username := "x" } }

def storeNoUser : Store := { transactions := [txNoUser] }

/-- C6 witness at a concrete store. -/
theorem c6_no_user_closes_ledger_witness :
    payTransaction confDefault storeNoUser 4 1 =
      (updateTransaction storeNoUser
        { txNoUser with paymentBilled := txNoUser.paymentAmount },
        .error .emptyUserId) ∧
    (payTransaction confDefault storeNoUser 4 1).1.orders =
      storeNoUser.orders ∧
    (payTransaction confDefault storeNoUser 4 1).1.dispatched =
      storeNoUser.dispatched ∧
    (findTransaction (payTransaction confDefault storeNoUser 4 1).1 4).map
      (fun t => t.paymentBilled) = some txNoUser.paymentAmount :=
  c6_no_user_closes_ledger confDefault storeNoUser 4 1 txNoUser
    { idTag := "T4", userId := "", username := "x" }
    (by decide) (by decide) rfl (by decide) rfl rfl

end Electrum
namespace Electrum

/-! ## The per-id lock map (payments.go lines 51-67)

`lockOrder` does `value, _ := p.locks.LoadOrStore(id, &sync.Mutex{});
mutex := value.(*sync.Mutex); mutex.Lock()`, and `unlockOrder` does
`mutex.Unlock(); p.locks.Delete(id)`.  The model below is an interleaving
semantics for three goroutines contending on one id: mutexes have
identity (allocation numbers), `mapEntry` is the `sync.Map` slot for the
id, `locked` the set of currently held mutexes.  `LoadOrStore` is atomic;
`Lock` is only enabled when the referenced mutex is free (a blocked
goroutine simply has no enabled `acquire` step); `Unlock` and `Delete`
are the two separate steps of `unlockOrder`. -/

inductive GoTid where
  | a
  | b
  | c
deriving Repr, DecidableEq

structure GoThread where
  ref : Option Nat := none
  inCS : Bool := false
deriving Repr, DecidableEq

structure LockSys where
  nextM : Nat := 0
  mapEntry : Option Nat := none
  locked : List Nat := []
  thA : GoThread := {}
  thB : GoThread := {}
  thC : GoThread := {}
deriving Repr, DecidableEq

def LockSys.get (s : LockSys) : GoTid → GoThread
  | .a => s.thA
  | .b => s.thB
  | .c => s.thC

def LockSys.set (s : LockSys) (t : GoTid) (th : GoThread) : LockSys :=
  match t with
  | .a => { s with thA := th }
  | .b => { s with thB := th }
  | .c => { s with thC := th }

inductive LockAction where
  /-- `p.locks.LoadOrStore(id, &sync.Mutex{})` followed by the type
  assertion: the goroutine records its mutex reference. -/
  | loadOrStore (t : GoTid)
  /-- `mutex.Lock()` succeeding: only enabled when the referenced mutex is
  free; entering the critical section. -/
  | acquire (t : GoTid)
  /-- `mutex.Unlock()`: leaving the critical section. -/
  | release (t : GoTid)
  /-- `p.locks.Delete(id)`. -/
  | deleteEntry (t : GoTid)
deriving Repr, DecidableEq

def lockStep (s : LockSys) (act : LockAction) : Option LockSys :=
  match act with
  | .loadOrStore t =>
    if (s.get t).ref.isSome then none
    else match s.mapEntry with
      | some m => some (s.set t { s.get t with ref := some m })
      | none =>
        some (({ s with mapEntry := some s.nextM,
                        nextM := s.nextM + 1 } : LockSys).set t
          { s.get t with ref := some s.nextM })
  | .acquire t =>
    match (s.get t).ref with
    | none => none
    | some m =>
      if s.locked.contains m then none
      else some (({ s with locked := m :: s.locked } : LockSys).set t
        { s.get t with inCS := true })
  | .release t =>
    match (s.get t).ref with
    | none => none
    | some m =>
      if (s.get t).inCS then
        some (({ s with locked := s.locked.erase m } : LockSys).set t
          { s.get t with inCS := false })
      else none
  | .deleteEntry t =>
    if (s.get t).ref.isSome then some { s with mapEntry := none }
    else none

def lockRun (s : LockSys) : List LockAction → Option LockSys
  | [] => some s
  | act :: rest =>
    match lockStep s act with
    | none => none
    | some s' => lockRun s' rest

/-- A legal interleaving of three concurrent engine calls on the same id:
A locks and finishes; B obtains the mutex reference while A holds it; A's
`unlockOrder` deletes the map entry; C's `LoadOrStore` then creates a
fresh mutex and locks it while B locks the old one. -/
def lockRaceTrace : List LockAction :=
  [.loadOrStore .a, .acquire .a, .loadOrStore .b, .release .a,
   .deleteEntry .a, .loadOrStore .c, .acquire .c, .acquire .b]

/-- C7: the lock discipline does **not** guarantee mutual exclusion.  The
trace above is a legal interleaving of three concurrent calls for the same
transaction id after which goroutines B and C are both inside the critical
section at once, holding two different mutexes that both stand for the
same id. -/
theorem c7_mutual_exclusion_violated :
    (lockRun {} lockRaceTrace).map
      (fun s => (s.thB.inCS, s.thC.inCS, s.thB.ref == s.thC.ref)) =
      some (true, true, false) ∧
    (lockRun {} lockRaceTrace).map
      (fun s => s.thB.inCS && s.thC.inCS) = some true := by
  exact ⟨by decide, by decide⟩

end Electrum
namespace Electrum

/-- Equality of every persisted collection except the append-only audit
collection (`payment`) that `SavePaymentResult` grows on each reply. -/
def sameExceptResults (a b : Store) : Prop :=
  a.transactions = b.transactions ∧ a.orders = b.orders ∧
  a.methods = b.methods ∧ a.tags = b.tags ∧ a.dispatched = b.dispatched

theorem counter_methods_congr (s s' : Store) (i : String) (c : Int)
    (h : s'.methods = s.methods) :
    (updatePaymentMethodFailCounter s' i c).methods =
      (updatePaymentMethodFailCounter s i c).methods := by
  by_cases hi : (i == "") = true
  · simp [updatePaymentMethodFailCounter, hi, h]
  · rw [Bool.not_eq_true] at hi
    cases hfind : s.methods.find? (fun m => m.identifier == i) with
    | none =>
      simp [updatePaymentMethodFailCounter, getPaymentMethodByIdentifier,
        hi, h, hfind]
    | some pm =>
      simp [updatePaymentMethodFailCounter, getPaymentMethodByIdentifier,
        updatePaymentMethodFailCount, hi, h, hfind]

theorem counter_zero_idem (s : Store) (i : String) :
    (updatePaymentMethodFailCounter
      (updatePaymentMethodFailCounter s i 0) i 0).methods =
      (updatePaymentMethodFailCounter s i 0).methods := by
  by_cases hi : (i == "") = true
  · simp [updatePaymentMethodFailCounter, hi]
  · rw [Bool.not_eq_true] at hi
    cases hfind : s.methods.find? (fun m => m.identifier == i) with
    | none =>
      simp [updatePaymentMethodFailCounter, getPaymentMethodByIdentifier,
        hi, hfind]
    | some pm =>
      have hpm : (pm.identifier == i) = true := by
        simpa using List.find?_some hfind
      have hf2 : ((updatePaymentMethodFailCount s i 0).methods.find?
          (fun m => m.identifier == i)) =
          some { pm with failCount := 0 } := by
        simp only [updatePaymentMethodFailCount]
        exact find?_updateFirst _ _ _ pm hfind (by simpa using hpm)
      simp only [updatePaymentMethodFailCounter, hi, Bool.false_eq_true,
        if_false, getPaymentMethodByIdentifier, hfind,
        beq_self_eq_true, if_pos rfl]
      simp only [if_true]
      rw [hf2]
      simp only [updatePaymentMethodFailCount]
      rw [updateFirst_updateFirst]
      intro a ha
      exact ⟨by simpa using ha, rfl⟩

end Electrum
namespace Electrum

/-- The order completion writes of `processResponse`
(payments.go lines 560-566). -/
def completedOrder (o : PaymentOrder) (r : PaymentParameters)
    (amount now : Int) : PaymentOrder :=
  { o with amount := amount, isCompleted := true,
           result := r.response ++ " by electrum", timeClosed := now,
           currency := r.currency, date := r.date ++ " " ++ r.hour }

/-- The refund-field writes of `processResponse`
(payments.go lines 583-584). -/
def refundedOrder (o : PaymentOrder) (amount now : Int) : PaymentOrder :=
  { o with refundAmount := amount, refundTime := now }

@[simp] theorem refundedOrder_isCompleted (o : PaymentOrder) (a t : Int) :
    (refundedOrder o a t).isCompleted = o.isCompleted := rfl

@[simp] theorem refundedOrder_order (o : PaymentOrder) (a t : Int) :
    (refundedOrder o a t).order = o.order := rfl

@[simp] theorem refundedOrder_identifier (o : PaymentOrder) (a t : Int) :
    (refundedOrder o a t).identifier = o.identifier := rfl

@[simp] theorem completedOrder_isCompleted (o : PaymentOrder)
    (r : PaymentParameters) (a t : Int) :
    (completedOrder o r a t).isCompleted = true := rfl

@[simp] theorem completedOrder_order (o : PaymentOrder)
    (r : PaymentParameters) (a t : Int) :
    (completedOrder o r a t).order = o.order := rfl

@[simp] theorem completedOrder_identifier (o : PaymentOrder)
    (r : PaymentParameters) (a t : Int) :
    (completedOrder o r a t).identifier = o.identifier := rfl

theorem refundedOrder_refundedOrder (o : PaymentOrder) (a t : Int) :
    refundedOrder (refundedOrder o a t) a t = refundedOrder o a t := rfl

/-- Characterization of reconciliation for a successful refund reply
(type "3", response "0900") whose order is found: persist the audit
record, complete the order if it was open, reset the method's fail count,
write the refund fields. -/
theorem processResponse_refund_char (conf : EngineConfig) (s : Store)
    (r : PaymentParameters) (now number amount : Int) (o : PaymentOrder)
    (h3 : r.transactionType = "3") (h09 : r.response = "0900")
    (hord : atoi? r.order = some number) (ham : atoi? r.amount = some amount)
    (hget : getPaymentOrder s number = some o) :
    processResponse conf s r now =
      savePaymentOrder
        (updatePaymentMethodFailCounter
          (if o.isCompleted then savePaymentResult s r
           else savePaymentOrder (savePaymentResult s r)
                  (completedOrder o r amount now))
          o.identifier 0)
        (refundedOrder
          (if o.isCompleted then o else completedOrder o r amount now)
          amount now) := by
  have hcheck : checkPaymentResult r = true := by
    simp [checkPaymentResult, h3, h09]
  have h3b : (r.transactionType == "3") = true := by simp [h3]
  cases hoc : o.isCompleted with
  | true =>
    simp [processResponse, hord, ham, hget, hoc, hcheck, h3b,
      completedOrder, refundedOrder]
  | false =>
    simp [processResponse, hord, ham, hget, hoc, hcheck, h3b,
      completedOrder, refundedOrder]

end Electrum
namespace Electrum

theorem getPaymentOrder_savePaymentOrder_self (s : Store) (x : PaymentOrder)
    (n : Int) (h : x.order = n) :
    getPaymentOrder (savePaymentOrder s x) n = some x := by
  unfold getPaymentOrder
  rw [savePaymentOrder_orders]
  exact find?_upsertOrder_self _ _ _ h

theorem c1_amended_refund_idempotent (conf : EngineConfig) (s : Store)
    (r : PaymentParameters) (now : Int)
    (h3 : r.transactionType = "3") (h09 : r.response = "0900") :
    sameExceptResults
      (processResponse conf (processResponse conf s r now) r now)
      (processResponse conf s r now) := by
  cases hord : atoi? r.order with
  | none => simp [processResponse, hord, sameExceptResults]
  | some number =>
  cases ham : atoi? r.amount with
  | none => simp [processResponse, hord, ham, sameExceptResults]
  | some amount =>
  cases hget : getPaymentOrder s number with
  | none =>
    simp [processResponse, hord, ham, hget, sameExceptResults]
  | some o =>
  have hnum : o.order = number := getPaymentOrder_order_eq _ _ _ hget
  have hchar1 := processResponse_refund_char conf s r now number amount o
    h3 h09 hord ham hget
  cases hoc : o.isCompleted with
  | true =>
    rw [hoc] at hchar1
    simp only [if_true] at hchar1
    have hget2 : getPaymentOrder (processResponse conf s r now) number =
        some (refundedOrder o amount now) := by
      rw [hchar1]
      exact getPaymentOrder_savePaymentOrder_self _ _ _ (by simp [hnum])
    have hchar2 := processResponse_refund_char conf
      (processResponse conf s r now) r now number amount
      (refundedOrder o amount now) h3 h09 hord ham hget2
    rw [refundedOrder_isCompleted, hoc] at hchar2
    simp only [if_true, refundedOrder_refundedOrder,
      refundedOrder_identifier] at hchar2
    rw [hchar2, hchar1]
    refine ⟨?_, ?_, ?_, ?_, ?_⟩
    · simp only [savePaymentOrder_transactions,
        updatePaymentMethodFailCounter_transactions,
        savePaymentResult_transactions]
    · simp only [savePaymentOrder_orders,
        updatePaymentMethodFailCounter_orders, savePaymentResult_orders]
      exact upsertOrder_upsertOrder _ _ _ rfl
    · simp only [savePaymentOrder_methods, savePaymentResult_methods]
      rw [counter_methods_congr
        (updatePaymentMethodFailCounter (savePaymentResult s r)
          o.identifier 0)
        (savePaymentResult (savePaymentOrder (updatePaymentMethodFailCounter
          (savePaymentResult s r) o.identifier 0)
          (refundedOrder o amount now)) r) o.identifier 0 rfl]
      exact counter_zero_idem (savePaymentResult s r) o.identifier
    · simp only [savePaymentOrder_tags,
        updatePaymentMethodFailCounter_tags, savePaymentResult_tags]
    · simp only [savePaymentOrder_dispatched,
        updatePaymentMethodFailCounter_dispatched,
        savePaymentResult_dispatched]
  | false =>
    rw [hoc] at hchar1
    simp only [Bool.false_eq_true, if_false] at hchar1
    have hget2 : getPaymentOrder (processResponse conf s r now) number =
        some (refundedOrder (completedOrder o r amount now) amount now) := by
      rw [hchar1]
      exact getPaymentOrder_savePaymentOrder_self _ _ _ (by simp [hnum])
    have hchar2 := processResponse_refund_char conf
      (processResponse conf s r now) r now number amount
      (refundedOrder (completedOrder o r amount now) amount now)
      h3 h09 hord ham hget2
    rw [refundedOrder_isCompleted, completedOrder_isCompleted] at hchar2
    simp only [if_true, refundedOrder_refundedOrder,
      refundedOrder_identifier, completedOrder_identifier] at hchar2
    rw [hchar2, hchar1]
    refine ⟨?_, ?_, ?_, ?_, ?_⟩
    · simp only [savePaymentOrder_transactions,
        updatePaymentMethodFailCounter_transactions,
        savePaymentResult_transactions]
    · simp only [savePaymentOrder_orders,
        updatePaymentMethodFailCounter_orders, savePaymentResult_orders]
      rw [upsertOrder_upsertOrder _ _ _ (by simp)]
    · simp only [savePaymentOrder_methods, savePaymentResult_methods]
      rw [counter_methods_congr
        (updatePaymentMethodFailCounter (savePaymentOrder
          (savePaymentResult s r) (completedOrder o r amount now))
          o.identifier 0)
        (savePaymentResult (savePaymentOrder (updatePaymentMethodFailCounter
          (savePaymentOrder (savePaymentResult s r)
            (completedOrder o r amount now)) o.identifier 0)
          (refundedOrder (completedOrder o r amount now) amount now)) r)
        o.identifier 0 rfl]
      exact counter_zero_idem
        (savePaymentOrder (savePaymentResult s r)
          (completedOrder o r amount now)) o.identifier
    · simp only [savePaymentOrder_tags,
        updatePaymentMethodFailCounter_tags, savePaymentResult_tags]
    · simp only [savePaymentOrder_dispatched,
        updatePaymentMethodFailCounter_dispatched,
        savePaymentResult_dispatched]

end Electrum
namespace Electrum

/-- C1 counterexample: reconciliation is **not** idempotent.  Applying the
same success reply (`Ds_TransactionType = "0"`, `Ds_Response = "0000"`,
`Ds_Amount = "700"`) twice to a store holding transaction 7 with
`payment_billed = 100` leaves `payment_billed = 800` after one
application but `payment_billed = 1500` after two: the credit to the
transaction (payments.go lines 592-609) is not guarded by
`order.IsCompleted`, so the second reply for the already-completed order
is not a refund-only update or a no-op. -/
theorem c1_counterexample :
    (findTransaction (processResponse confDefault storeDispatch500
        replyAmount700 5) 7).map (fun t => t.paymentBilled) = some 800 ∧
    (findTransaction (processResponse confDefault (processResponse confDefault
        storeDispatch500 replyAmount700 5) replyAmount700 5) 7).map
      (fun t => t.paymentBilled) = some 1500 ∧
    (some (1500 : Int) ≠ some (800 : Int)) := by
  refine ⟨by decide, by decide, by decide⟩

/-- A completed stored order of 500 cents with no transaction attached to
the refund scenario's method. -/
def orderDone1300 : PaymentOrder :=
  { order := 1300, transactionId := 7, amount := 500,
    identifier := "card1", isCompleted := true }

def storeRefund : Store := { orders := [orderDone1300] }

/-- A successful refund reply for order 1300. -/
def replyRefund : PaymentParameters :=
  { response := "0900", order := "1300", amount := "500",
    transactionType := "3" }

/-- C1 amended, witness: the refund idempotence theorem applied at a
concrete store and refund reply. -/
theorem c1_amended_refund_idempotent_witness :
    sameExceptResults
      (processResponse confDefault
        (processResponse confDefault storeRefund replyRefund 5)
        replyRefund 5)
      (processResponse confDefault storeRefund replyRefund 5) :=
  c1_amended_refund_idempotent confDefault storeRefund replyRefund 5 rfl rfl

end Electrum
namespace Electrum

/-- The transaction ledger invariant of the spec:
`0 ≤ payment_billed ≤ payment_amount`, or `payment_error ≠ ""` with
`payment_billed = payment_amount` (settlement closed on error). -/
def txInv (t : Transaction) : Prop :=
  (0 ≤ t.paymentBilled ∧ t.paymentBilled ≤ t.paymentAmount) ∨
  (t.paymentError ≠ "" ∧ t.paymentBilled = t.paymentAmount)

/-- Store-wide invariant: every transaction has a non-negative
`payment_amount` (set upstream by pricing, never modified by the engine)
and satisfies `txInv`. -/
def storeInv (s : Store) : Prop :=
  ∀ t ∈ s.transactions, 0 ≤ t.paymentAmount ∧ txInv t

/-- Soundness condition on a reply: whenever it successfully credits a
transaction (success, non-refund, order with a transaction), the credited
amount — the stored order amount for a completed order, the reply's
`Ds_Amount` for an open one — is non-negative and no more than the
transaction's unbilled remainder.  A duplicate of an already-applied
success reply violates this (the remainder is then 0). -/
def creditOk (s : Store) (r : PaymentParameters) : Prop :=
  ∀ number amount o t,
    atoi? r.order = some number →
    atoi? r.amount = some amount →
    getPaymentOrder s number = some o →
    checkPaymentResult r = true →
    (r.transactionType == "3") = false →
    0 < o.transactionId →
    findTransaction s o.transactionId = some t →
    0 ≤ (if o.isCompleted then o.amount else amount) ∧
    t.paymentBilled + (if o.isCompleted then o.amount else amount) ≤
      t.paymentAmount

def opOk (s : Store) : Op → Prop
  | .reconcile r => creditOk s r
  | _ => True

theorem storeInv_of_transactions_eq (s s' : Store)
    (h : s'.transactions = s.transactions) (hs : storeInv s) :
    storeInv s' := by
  intro t ht
  rw [h] at ht
  exact hs t ht

theorem storeInv_updateTransaction (s s2 : Store) (tx t' : Transaction)
    (hs : storeInv s) (htx : findTransaction s t'.id = some tx)
    (h2 : s2.transactions = s.transactions)
    (hinv : txInv { tx with paymentOrder := t'.paymentOrder,
                            paymentError := t'.paymentError,
                            paymentBilled := t'.paymentBilled,
                            paymentOrders := t'.paymentOrders }) :
    storeInv (updateTransaction s2 t') := by
  intro u hu
  have hu' : u ∈ updateFirst (fun v => v.id == t'.id)
      (fun v => { v with paymentOrder := t'.paymentOrder,
                         paymentError := t'.paymentError,
                         paymentBilled := t'.paymentBilled,
                         paymentOrders := t'.paymentOrders })
      s.transactions := by
    simpa [updateTransaction, h2] using hu
  rcases mem_updateFirst_of_find? _ _ _ tx htx u hu' with h | h
  · exact hs u h
  · refine ⟨?_, ?_⟩
    · rw [h]
      exact (hs tx (List.mem_of_find?_eq_some htx)).1
    · rw [h]
      exact hinv

theorem closeOrphanOrder_transactions (s : Store) (tid now : Int) :
    (closeOrphanOrder s tid now).transactions = s.transactions := by
  unfold closeOrphanOrder
  split
  · rfl
  · rw [updatePaymentMethodFailCounter_transactions,
      savePaymentOrder_transactions]

theorem closeOrphanOrder_methods_tags_dispatched (s : Store) (tid now : Int) :
    (closeOrphanOrder s tid now).tags = s.tags ∧
    (closeOrphanOrder s tid now).dispatched = s.dispatched ∧
    (closeOrphanOrder s tid now).results = s.results := by
  unfold closeOrphanOrder
  split
  · exact ⟨rfl, rfl, rfl⟩
  · rw [updatePaymentMethodFailCounter_tags, savePaymentOrder_tags,
      updatePaymentMethodFailCounter_dispatched, savePaymentOrder_dispatched,
      updatePaymentMethodFailCounter_results, savePaymentOrder_results]
    exact ⟨rfl, rfl, rfl⟩

end Electrum
namespace Electrum

theorem storeInv_payTransaction (conf : EngineConfig) (s : Store)
    (tid now : Int) (hs : storeInv s) :
    storeInv (payTransaction conf s tid now).1 := by
  unfold payTransaction
  simp only []
  split
  · exact hs
  split
  · exact hs
  case _ tx heq =>
    have hid : tx.id = tid := findTransaction_id_eq _ _ _ heq
    have htx' : findTransaction s tx.id = some tx := by rw [hid]; exact heq
    have hamt : 0 ≤ tx.paymentAmount :=
      (hs tx (List.mem_of_find?_eq_some heq)).1
    split
    · exact hs
    split
    · exact hs
    split
    · exact hs
    case _ tg htg =>
      split
      · exact storeInv_updateTransaction s s tx _ hs htx' rfl
          (Or.inl ⟨hamt, le_refl _⟩)
      split
      · exact storeInv_updateTransaction s s tx _ hs htx' rfl
          (Or.inl ⟨hamt, le_refl _⟩)
      case _ pm0 hpm =>
        split
        · exact storeInv_updateTransaction s (closeOrphanOrder s tid now) tx _
            hs htx' (closeOrphanOrder_transactions s tid now)
            (Or.inl ⟨hamt, le_refl _⟩)
        · split
          · apply storeInv_of_transactions_eq _ _ _ hs
            simp only [savePaymentOrder_transactions,
              closeOrphanOrder_transactions]
          · apply storeInv_of_transactions_eq _ _ _ hs
            simp only [savePaymentOrder_transactions,
              closeOrphanOrder_transactions]

end Electrum
namespace Electrum

theorem storeInv_closeTail (s s2 : Store) (o2 : PaymentOrder)
    (result : String) (hs : storeInv s)
    (h2 : s2.transactions = s.transactions) :
    storeInv (if o2.transactionId > 0 then
        match findTransaction s2 o2.transactionId with
        | none => s2
        | some t => updateTransaction s2 (Transaction.addOrder
            { t with paymentBilled := t.paymentAmount,
                     paymentOrder := o2.order, paymentError := result } o2)
      else s2) := by
  split
  · split
    case _ => exact storeInv_of_transactions_eq _ _ h2 hs
    case _ t heq =>
      have ht2 : findTransaction s o2.transactionId = some t := by
        rw [← heq]
        unfold findTransaction
        rw [h2]
      have htid : t.id = o2.transactionId := findTransaction_id_eq _ _ _ ht2
      have hmem : t ∈ s.transactions := List.mem_of_find?_eq_some ht2
      refine storeInv_updateTransaction s s2 t _ hs ?_ h2 ?_
      · show findTransaction s t.id = some t
        rw [htid]
        exact ht2
      · exact Or.inl ⟨(hs t hmem).1, le_refl _⟩
  · exact storeInv_of_transactions_eq _ _ h2 hs

theorem storeInv_closeOrderOnError (s0 s : Store) (o : PaymentOrder)
    (result : String) (now : Int)
    (hs : storeInv s) (h0 : s0.transactions = s.transactions) :
    storeInv (closeOrderOnError s0 o result now) := by
  unfold closeOrderOnError
  simp only []
  split
  · exact storeInv_closeTail s _ _ result hs (by
      rw [savePaymentOrder_transactions,
        updatePaymentMethodFailCounter_transactions, h0])
  · exact storeInv_closeTail s _ _ result hs (by
      rw [updatePaymentMethodFailCounter_transactions, h0])

end Electrum
namespace Electrum

theorem storeInv_creditTail (s s2 : Store) (tid amt ord : Int)
    (o1 : PaymentOrder)
    (hs : storeInv s) (h2 : s2.transactions = s.transactions)
    (hcred : ∀ t, findTransaction s tid = some t →
      0 ≤ amt ∧ t.paymentBilled + amt ≤ t.paymentAmount) :
    storeInv (match findTransaction s2 tid with
      | none => s2
      | some t => updateTransaction s2 (Transaction.addOrder
          { t with paymentOrder := ord,
                   paymentBilled := t.paymentBilled + amt,
                   paymentError := "" } o1)) := by
  split
  case _ => exact storeInv_of_transactions_eq _ _ h2 hs
  case _ t heq =>
    have ht2 : findTransaction s tid = some t := by
      rw [← heq]
      unfold findTransaction
      rw [h2]
    have htid : t.id = tid := findTransaction_id_eq _ _ _ ht2
    have hmem : t ∈ s.transactions := List.mem_of_find?_eq_some ht2
    have hb : 0 ≤ t.paymentBilled := by
      rcases (hs t hmem).2 with ⟨h1, _⟩ | ⟨_, heqb⟩
      · exact h1
      · rw [heqb]
        exact (hs t hmem).1
    obtain ⟨h0le, hle⟩ := hcred t ht2
    refine storeInv_updateTransaction s s2 t _ hs ?_ h2 ?_
    · show findTransaction s t.id = some t
      rw [htid]
      exact ht2
    · exact Or.inl ⟨add_nonneg hb h0le, hle⟩

end Electrum
namespace Electrum

theorem storeInv_processResponse (conf : EngineConfig) (s : Store)
    (r : PaymentParameters) (now : Int) (hs : storeInv s)
    (hc : creditOk s r) :
    storeInv (processResponse conf s r now) := by
  have hsr : storeInv (savePaymentResult s r) :=
    storeInv_of_transactions_eq _ _ (savePaymentResult_transactions s r) hs
  unfold processResponse
  simp only []
  split
  case _ => exact hsr
  case _ number hord =>
  split
  case _ => exact hsr
  case _ amount ham =>
  split
  case _ => exact hsr
  case _ o hget =>
  have hget' : getPaymentOrder s number = some o := by
    rw [← getPaymentOrder_savePaymentResult s r number]
    exact hget
  cases hoc : o.isCompleted with
  | false =>
    simp only [hoc, Bool.not_false, if_true]
    split
    case _ hchk =>
      exact storeInv_closeOrderOnError _ s _ r.response now hs (by
        rw [savePaymentOrder_transactions, savePaymentResult_transactions])
    case _ hchk =>
      have hchk' : checkPaymentResult r = true := by simpa using hchk
      split
      case _ h3 =>
        apply storeInv_of_transactions_eq _ _ _ hs
        rw [savePaymentOrder_transactions,
          updatePaymentMethodFailCounter_transactions,
          savePaymentOrder_transactions, savePaymentResult_transactions]
      case _ h3 =>
        split
        case _ htid =>
          apply storeInv_creditTail s _ _ _ _ _ hs (by
            rw [updatePaymentMethodFailCounter_transactions,
              savePaymentOrder_transactions, savePaymentResult_transactions])
          intro t ht
          have := hc number amount o t hord ham hget' hchk'
            (by simpa using h3) (by simpa using htid) ht
          rw [if_neg (by simp [hoc])] at this
          exact this
        case _ htid =>
          split
          · apply storeInv_of_transactions_eq _ _ _ hs
            rw [returnByOrder_transactions, savePaymentMethodEngine_transactions,
              updatePaymentMethodFailCounter_transactions,
              savePaymentOrder_transactions, savePaymentResult_transactions]
          · apply storeInv_of_transactions_eq _ _ _ hs
            rw [savePaymentMethodEngine_transactions,
              updatePaymentMethodFailCounter_transactions,
              savePaymentOrder_transactions, savePaymentResult_transactions]
  | true =>
    simp only [hoc, Bool.not_true, Bool.false_eq_true, if_false]
    split
    case _ hchk =>
      exact storeInv_closeOrderOnError _ s _ r.response now hs
        (savePaymentResult_transactions s r)
    case _ hchk =>
      have hchk' : checkPaymentResult r = true := by simpa using hchk
      split
      case _ h3 =>
        apply storeInv_of_transactions_eq _ _ _ hs
        rw [savePaymentOrder_transactions,
          updatePaymentMethodFailCounter_transactions,
          savePaymentResult_transactions]
      case _ h3 =>
        split
        case _ htid =>
          apply storeInv_creditTail s _ _ _ _ _ hs (by
            rw [updatePaymentMethodFailCounter_transactions,
              savePaymentResult_transactions])
          intro t ht
          have := hc number amount o t hord ham hget' hchk'
            (by simpa using h3) (by simpa using htid) ht
          rw [if_pos hoc] at this
          exact this
        case _ htid =>
          split
          · apply storeInv_of_transactions_eq _ _ _ hs
            rw [returnByOrder_transactions, savePaymentMethodEngine_transactions,
              updatePaymentMethodFailCounter_transactions,
              savePaymentResult_transactions]
          · apply storeInv_of_transactions_eq _ _ _ hs
            rw [savePaymentMethodEngine_transactions,
              updatePaymentMethodFailCounter_transactions,
              savePaymentResult_transactions]

end Electrum
namespace Electrum

/-- A finished charging session of 1000 cents with a cached user tag and a
cached, healthy payment method. -/
def txSession : Transaction :=
  { id := 7, isFinished := true, paymentAmount := 1000, paymentBilled := 0,
    idTag := "A1",
    userTag := some { idTag := "A1", userId := "u1", username := "U" },
    paymentMethod := some { identifier := "card1", userId := "u1",
                            cofTid := "abc123" } }

/-- The store seeded by the upstream charging service: the transaction and
its stored payment method; no orders yet. -/
def storeSession : Store :=
  { transactions := [txSession],
    methods := [{ identifier := "card1", userId := "u1",
                  cofTid := "abc123", isDefault := true }] }

/-- The gateway's success reply for the order PayTransaction(7) allocates
(1200 on the empty order store). -/
def replyAuth1000 : PaymentParameters :=
  { response := "0000", order := "1200", amount := "1000",
    transactionType := "0" }

/-- `PayTransaction(7)` followed by the gateway reply applied twice. -/
def opsDuplicateReply : List (Op × Int) :=
  [(.pay 7, 1), (.reconcile replyAuth1000, 2), (.reconcile replyAuth1000, 3)]

/-- C2 counterexample: after the reachable sequence `PayTransaction(7)`,
reply, duplicate reply, transaction 7 has `payment_billed = 2000` against
`payment_amount = 1000` with an empty `payment_error` — the claimed
invariant `0 ≤ billed ≤ amount ∨ (error ≠ "" ∧ billed = amount)` fails on
a reachable state that includes a duplicate reply. -/
theorem c2_counterexample :
    (findTransaction (runOps confDefault storeSession opsDuplicateReply)
        7).map (fun t => (t.paymentBilled, t.paymentAmount, t.paymentError)) =
      some (2000, 1000, "") ∧
    ¬(((0 : Int) ≤ 2000 ∧ (2000 : Int) ≤ 1000) ∨
      ("" ≠ "" ∧ (2000 : Int) = 1000)) := by
  refine ⟨by decide, by decide⟩

/-- C2 amended: the ledger invariant is preserved by every single
`PayTransaction`, `ReturnByOrder` and reconciliation step, provided each
reconciliation that successfully credits a transaction credits an amount
that is non-negative and no more than the transaction's unbilled
remainder (`creditOk`).  A duplicate success reply violates `creditOk`
(the remainder is already 0), and the counterexample shows the invariant
indeed fails then, so the claim holds only under this restriction. -/
theorem c2_amended_invariant_preserved (conf : EngineConfig) (s : Store)
    (op : Op) (now : Int) (hs : storeInv s) (hok : opOk s op) :
    storeInv (stepOp conf s op now) := by
  cases op with
  | pay tid => exact storeInv_payTransaction conf s tid now hs
  | refundOrder oid amt =>
    exact storeInv_of_transactions_eq _ _
      (returnByOrder_transactions conf s oid amt) hs
  | reconcile r => exact storeInv_processResponse conf s r now hs hok

/-- C2 amended, witness: the preservation theorem applied to the concrete
seeded store and the `PayTransaction(7)` step. -/
theorem c2_amended_invariant_preserved_witness :
    storeInv (stepOp confDefault storeSession (.pay 7) 1) :=
  c2_amended_invariant_preserved confDefault storeSession (.pay 7) 1
    (by
      intro t ht
      rw [show storeSession.transactions = [txSession] from rfl,
        List.mem_singleton] at ht
      subst ht
      exact ⟨by decide, Or.inl ⟨by decide, by decide⟩⟩)
    trivial

end Electrum
namespace Electrum

/-- The `PaymentOrder` persisted by a dispatching `PayTransaction` run
(payments.go lines 202-217), with the order number from `allocOrderNum`. -/
def dispatchedOrder (s : Store) (tx : Transaction) (tg : UserTag)
    (pm : PaymentMethod) (now : Int) : PaymentOrder :=
  { amount := tx.paymentAmount - tx.paymentBilled,
    description := tx.chargePointId ++ ":" ++ toString tx.connectorId ++ " "
      ++ toString (Int.tdiv (tx.meterStop - tx.meterStart) 1000) ++ "kW",
    identifier := pm.identifier, transactionId := tx.id,
    userId := tg.userId, userName := tg.username,
    timeOpened := now, order := allocOrderNum s }

/-- The MIT request parameters built by a dispatching `PayTransaction` run
(payments.go lines 229-253). -/
def mitParams (conf : EngineConfig) (s : Store) (tx : Transaction)
    (pm : PaymentMethod) : MerchantParameters :=
  { amount := toString (tx.paymentAmount - tx.paymentBilled),
    order := toString (allocOrderNum s),
    identifier := pm.identifier, merchantCode := conf.merchantCode,
    currency := "978", transactionType := "0",
    terminal := conf.merchantTerminal, directPayment := "true",
    exception := "MIT", cofIni := "N", cofType := "R",
    cofTid := pm.cofTid }

/-- Characterization of a dispatching `PayTransaction` run: merchant
configured, transaction found and finished with a positive unbilled
remainder, tag and method resolved, no orphan incomplete order, payments
enabled, signature created — the engine saves exactly one new order
(upserted by its number, allocated by `allocOrderNum`) and dispatches the
MIT request. -/
theorem payTransaction_dispatch_char (conf : EngineConfig) (s : Store)
    (tid now : Int) (tx : Transaction) (tg : UserTag) (pm0 : PaymentMethod)
    (hconf : merchantConfigured conf = true)
    (hdis : conf.disablePayment = false)
    (hsig : conf.secretValid = true)
    (htx : findTransaction s tid = some tx) (hfin : tx.isFinished = true)
    (hamt : 0 < tx.paymentAmount - tx.paymentBilled)
    (htag : resolveUserTag s tx = some tg) (huid : tg.userId ≠ "")
    (hpm : resolveMethod0 s tx tg.userId = some pm0)
    (horph : getPaymentOrderByTransaction s tid = none) :
    payTransaction conf s tid now =
      ({ s with
          orders := upsertOrder s.orders
            (dispatchedOrder s tx tg
              (applyMethodFallback s tx tg.userId pm0) now),
          dispatched := s.dispatched ++
            [mitParams conf s tx (applyMethodFallback s tx tg.userId pm0)] },
        .ok ()) := by
  have hle : ¬(tx.paymentAmount - tx.paymentBilled ≤ 0) := by omega
  have huid' : (tg.userId == "") = false := by simpa using huid
  have hclose : closeOrphanOrder s tid now = s := by
    unfold closeOrphanOrder
    rw [horph]
  simp only [payTransaction, hconf, Bool.not_true, Bool.false_eq_true,
    if_false, htx, hfin, if_neg hle, htag, huid', hpm, hclose, hdis, hsig,
    if_true, dispatchedOrder, mitParams]
  simp [savePaymentOrder]

end Electrum
namespace Electrum

theorem resolveUserTag_congr (s s' : Store) (tx : Transaction)
    (h : s'.tags = s.tags) : resolveUserTag s' tx = resolveUserTag s tx := by
  unfold resolveUserTag getUserTag
  rw [h]

theorem getPaymentMethodDB_congr (s s' : Store) (u : String)
    (h : s'.methods = s.methods) :
    getPaymentMethodDB s' u = getPaymentMethodDB s u := by
  unfold getPaymentMethodDB minFailMethod
  rw [h]

theorem resolveMethod0_congr (s s' : Store) (tx : Transaction) (u : String)
    (h : s'.methods = s.methods) :
    resolveMethod0 s' tx u = resolveMethod0 s tx u := by
  unfold resolveMethod0
  rw [getPaymentMethodDB_congr s s' u h]

theorem applyMethodFallback_congr (s s' : Store) (tx : Transaction)
    (u : String) (pm0 : PaymentMethod) (h : s'.methods = s.methods) :
    applyMethodFallback s' tx u pm0 = applyMethodFallback s tx u pm0 := by
  unfold applyMethodFallback
  rw [getPaymentMethodDB_congr s s' u h]

theorem getPaymentOrderByTransaction_append_none (s : Store)
    (l : List PaymentOrder) (tid : Int)
    (h : getPaymentOrderByTransaction s tid = none)
    (hl : ∀ o ∈ l, (o.transactionId == tid && !o.isCompleted) = false)
    (s' : Store) (hs' : s'.orders = s.orders ++ l) :
    getPaymentOrderByTransaction s' tid = none := by
  unfold getPaymentOrderByTransaction at h ⊢
  rw [hs']
  rw [List.find?_eq_none] at h ⊢
  intro x hx
  rcases List.mem_append.mp hx with hx | hx
  · exact h x hx
  · simp [hl x hx]

end Electrum
namespace Electrum

/-- C5: `PayTransaction` allocates the new order number as
`GetLastOrder().order + 1` — 1200 when no prior order exists — and for two
sequential dispatching calls (the first opened later than every stored
order, ids distinct, no number collision in the pre-state) the allocated
numbers strictly increase. -/
theorem c5_order_allocation_monotonic (conf : EngineConfig) (s : Store)
    (tid1 tid2 t1 t2 : Int) (tx1 tx2 : Transaction) (tg1 tg2 : UserTag)
    (pm1 pm2 : PaymentMethod)
    (hconf : merchantConfigured conf = true)
    (hdis : conf.disablePayment = false)
    (hsig : conf.secretValid = true)
    (htx1 : findTransaction s tid1 = some tx1) (hfin1 : tx1.isFinished = true)
    (hamt1 : 0 < tx1.paymentAmount - tx1.paymentBilled)
    (htag1 : resolveUserTag s tx1 = some tg1) (huid1 : tg1.userId ≠ "")
    (hpm1 : resolveMethod0 s tx1 tg1.userId = some pm1)
    (horph1 : getPaymentOrderByTransaction s tid1 = none)
    (htx2 : findTransaction s tid2 = some tx2) (hfin2 : tx2.isFinished = true)
    (hamt2 : 0 < tx2.paymentAmount - tx2.paymentBilled)
    (htag2 : resolveUserTag s tx2 = some tg2) (huid2 : tg2.userId ≠ "")
    (hpm2 : resolveMethod0 s tx2 tg2.userId = some pm2)
    (horph2 : getPaymentOrderByTransaction s tid2 = none)
    (hneq : tx1.id ≠ tid2)
    (hfresh : ∀ o ∈ s.orders, o.timeOpened < t1)
    (hcol1 : ∀ o ∈ s.orders, o.order ≠ allocOrderNum s)
    (hcol2 : ∀ o ∈ s.orders, o.order ≠ allocOrderNum s + 1) :
    ∃ o1 o2 : PaymentOrder,
      (payTransaction conf s tid1 t1).2 = .ok () ∧
      (payTransaction conf s tid1 t1).1.orders = s.orders ++ [o1] ∧
      o1.order = allocOrderNum s ∧
      (s.orders = [] → o1.order = 1200) ∧
      (payTransaction conf (payTransaction conf s tid1 t1).1 tid2 t2).2 =
        .ok () ∧
      (payTransaction conf (payTransaction conf s tid1 t1).1 tid2 t2).1.orders
        = (payTransaction conf s tid1 t1).1.orders ++ [o2] ∧
      o2.order = o1.order + 1 ∧
      o1.order < o2.order := by
  have hchar1 := payTransaction_dispatch_char conf s tid1 t1 tx1 tg1 pm1
    hconf hdis hsig htx1 hfin1 hamt1 htag1 huid1 hpm1 horph1
  have hS1orders : (payTransaction conf s tid1 t1).1.orders =
      s.orders ++ [dispatchedOrder s tx1 tg1
        (applyMethodFallback s tx1 tg1.userId pm1) t1] := by
    rw [hchar1]
    exact upsertOrder_append_of_no_collision _ _ (fun o ho => hcol1 o ho)
  have htx2' : findTransaction (payTransaction conf s tid1 t1).1 tid2 =
      some tx2 := by
    rw [hchar1]
    exact htx2
  have htag2' : resolveUserTag (payTransaction conf s tid1 t1).1 tx2 =
      some tg2 := by
    rw [hchar1]
    exact htag2
  have hpm2' : resolveMethod0 (payTransaction conf s tid1 t1).1 tx2
      tg2.userId = some pm2 := by
    rw [hchar1]
    exact hpm2
  have horph2' : getPaymentOrderByTransaction
      (payTransaction conf s tid1 t1).1 tid2 = none := by
    refine getPaymentOrderByTransaction_append_none s _ tid2 horph2 ?_ _
      hS1orders
    intro o ho
    rw [List.mem_singleton] at ho
    subst ho
    have : ((dispatchedOrder s tx1 tg1
        (applyMethodFallback s tx1 tg1.userId pm1) t1).transactionId
        == tid2) = false := by
      simpa [dispatchedOrder] using hneq
    simp [this]
  have hchar2 := payTransaction_dispatch_char conf
    (payTransaction conf s tid1 t1).1 tid2 t2 tx2 tg2 pm2
    hconf hdis hsig htx2' hfin2 hamt2 htag2' huid2 hpm2' horph2'
  have hlast : getLastOrder (payTransaction conf s tid1 t1).1 =
      some (dispatchedOrder s tx1 tg1
        (applyMethodFallback s tx1 tg1.userId pm1) t1) := by
    unfold getLastOrder
    rw [hS1orders]
    exact lastOrder?_append_strict _ _ (fun o ho => hfresh o ho)
  have halloc2 : allocOrderNum (payTransaction conf s tid1 t1).1 =
      allocOrderNum s + 1 := by
    unfold allocOrderNum
    rw [hlast]
    rfl
  refine ⟨dispatchedOrder s tx1 tg1
      (applyMethodFallback s tx1 tg1.userId pm1) t1,
    dispatchedOrder (payTransaction conf s tid1 t1).1 tx2 tg2
      (applyMethodFallback (payTransaction conf s tid1 t1).1 tx2
        tg2.userId pm2) t2,
    ?_, hS1orders, rfl, ?_, ?_, ?_, ?_, ?_⟩
  · rw [hchar1]
  · intro h
    show allocOrderNum s = 1200
    unfold allocOrderNum getLastOrder lastOrder?
    rw [h]
    rfl
  · rw [hchar2]
  · rw [hchar2]
    show upsertOrder (payTransaction conf s tid1 t1).1.orders _ = _
    apply upsertOrder_append_of_no_collision
    intro o ho
    rw [hS1orders] at ho
    show o.order ≠ allocOrderNum (payTransaction conf s tid1 t1).1
    rw [halloc2]
    rcases List.mem_append.mp ho with ho | ho
    · exact hcol2 o ho
    · rw [List.mem_singleton] at ho
      subst ho
      show allocOrderNum s ≠ allocOrderNum s + 1
      omega
  · show allocOrderNum (payTransaction conf s tid1 t1).1 =
      allocOrderNum s + 1
    exact halloc2
  · show allocOrderNum s <
      allocOrderNum (payTransaction conf s tid1 t1).1
    rw [halloc2]
    omega

end Electrum
namespace Electrum

/-- A second finished charging session, id 8, for user u2. -/
def txSession8 : Transaction :=
  { id := 8, isFinished := true, paymentAmount := 600, paymentBilled := 0,
    idTag := "A2",
    userTag := some { idTag := "A2", userId := "u2", username := "V" },
    paymentMethod := some { identifier := "card2", userId := "u2",
                            cofTid := "def456" } }

/-- A store with two finished sessions and no orders. -/
def storeTwoSessions : Store :=
  { transactions := [txSession, txSession8] }

/-- C5 witness: on the empty order store, `PayTransaction(7)` then
`PayTransaction(8)` allocate orders 1200 and 1201. -/
theorem c5_order_allocation_monotonic_witness :
    ∃ o1 o2 : PaymentOrder,
      (payTransaction confDefault storeTwoSessions 7 1).2 = .ok () ∧
      (payTransaction confDefault storeTwoSessions 7 1).1.orders =
        storeTwoSessions.orders ++ [o1] ∧
      o1.order = allocOrderNum storeTwoSessions ∧
      (storeTwoSessions.orders = [] → o1.order = 1200) ∧
      (payTransaction confDefault
        (payTransaction confDefault storeTwoSessions 7 1).1 8 2).2 =
        .ok () ∧
      (payTransaction confDefault
          (payTransaction confDefault storeTwoSessions 7 1).1 8 2).1.orders
        = (payTransaction confDefault storeTwoSessions 7 1).1.orders
          ++ [o2] ∧
      o2.order = o1.order + 1 ∧
      o1.order < o2.order :=
  c5_order_allocation_monotonic confDefault storeTwoSessions 7 8 1 2
    txSession txSession8
    { idTag := "A1", userId := "u1", username := "U" }
    { idTag := "A2", userId := "u2", username := "V" }
    { identifier := "card1", userId := "u1", cofTid := "abc123" }
    { identifier := "card2", userId := "u2", cofTid := "def456" }
    rfl rfl rfl (by decide) rfl (by decide) rfl (by decide) rfl rfl
    (by decide) rfl (by decide) rfl (by decide) rfl rfl (by decide)
    (by decide) (by decide) (by decide)

end Electrum
